import Mathlib

/-!
Shallow embedding of the CLSDW clinical-lab pipeline (src/app.js) and proofs
about its validation, reconciliation and audit behaviour.

Conventions of the embedding:
* JS 32-bit bit patterns are modelled as `Nat` values kept below `2 ^ 32`;
  JS bitwise operators act on the 32-bit pattern, so signed/unsigned
  distinctions disappear once we work with the pattern itself.
* A JS `number` stored in a record value is modelled as `Option ℚ`, where
  `none` models `NaN` (after `normalizeRecord` the field always has JS type
  `number`, so only the NaN distinction remains observable).
* Host functions that are not part of the repository (`JSON.parse`,
  `DOMParser`, `Date.parse`, clock and number formatting) are modelled
  explicitly and marked as such; no claim depends on their internals.
-/

namespace CLSDW

/-- UTF-16 code units of one character, as JS `charCodeAt` enumerates them. -/
def charUnits (c : Char) : List Nat :=
  let n := c.toNat
  if n < 65536 then [n]
  else [55296 + (n - 65536) / 1024, 56320 + (n - 65536) % 1024]

/-- The UTF-16 code units of a string (JS strings are code-unit sequences). -/
def codeUnits (s : String) : List Nat :=
  (s.data.map charUnits).flatten

/-- One round of the reflected CRC-32 table recurrence:
`c = (c & 1) ? (0xEDB88320 ^ (c >>> 1)) : (c >>> 1)` from src/app.js. -/
def crcRound (c : Nat) : Nat :=
  if c % 2 = 1 then Nat.xor 0xEDB88320 (c >>> 1) else c >>> 1

/-- Eight rounds of `crcRound`, i.e. the loop body building `CRC32_TABLE[n]`. -/
def crcTable (n : Nat) : Nat :=
  crcRound (crcRound (crcRound (crcRound (crcRound (crcRound (crcRound (crcRound n)))))))

/-- One step of the CRC-32 fold:
`crc = (crc >>> 8) ^ CRC32_TABLE[(crc ^ byte) & 0xFF]`. -/
def crcStep (crc byte : Nat) : Nat :=
  Nat.xor (crc >>> 8) (crcTable (Nat.land (Nat.xor crc byte) 255))

/-- `crc32` from src/app.js applied to a list of UTF-16 code units:
initial value all-ones (`0 ^ (-1)`), table-driven byte loop, final value
complemented and made unsigned (`(crc ^ (-1)) >>> 0`). -/
def crc32 (units : List Nat) : Nat :=
  Nat.xor (units.foldl crcStep 0xFFFFFFFF) 0xFFFFFFFF

/-- Lowercase hexadecimal digit, as produced by JS `Number.toString(16)`. -/
def hexDigit (n : Nat) : Char :=
  if n < 10 then Char.ofNat (48 + n) else Char.ofNat (87 + n)

/-- Accumulating hex-digit expansion (most significant digit first).  The
first argument is structural fuel; `fuel = n` always suffices since the
number of hex digits of `n` never exceeds `n`. -/
def natToHexAux : Nat → Nat → List Char → List Char
  | 0, n, acc => hexDigit (n % 16) :: acc
  | fuel + 1, n, acc =>
    if n < 16 then hexDigit n :: acc
    else natToHexAux fuel (n / 16) (hexDigit (n % 16) :: acc)

/-- JS `n.toString(16)` for a non-negative integer. -/
def natToHex (n : Nat) : String :=
  ⟨natToHexAux n n []⟩

/-- JS `x.toString(16).padStart(8, '0')`. -/
def hex8 (n : Nat) : String :=
  ⟨List.replicate (8 - (natToHex n).length) '0'⟩ ++ natToHex n

/-- One invocation of the closure returned by `mulberry32` in src/app.js,
returning the updated state together with the 32-bit output pattern.  The
closure's float result is `output / 2^32`; we keep the integer numerator.
All JS int32/uint32 mixing is pattern-exact modulo `2 ^ 32`. -/
def mulberry32 (a : Nat) : Nat × Nat :=
  let a1 := (a + 0x6D2B79F5) % 4294967296
  let t1 := ((Nat.xor a1 (a1 >>> 15)) * (Nat.lor 1 a1)) % 4294967296
  let t2 := Nat.xor ((t1 + ((Nat.xor t1 (t1 >>> 7)) * (Nat.lor 61 t1)) % 4294967296) % 4294967296) t1
  (a1, Nat.xor t2 (t2 >>> 14))

/-- The reconciliation outcome for one processed record (src/app.js lines
359-371): `{id, ok, ackCode, delay, sla}`. -/
structure AckResult where
  id : String
  ok : Bool
  ackCode : Nat
  delay : Nat
  sla : Bool
  deriving DecidableEq, Repr

/-- Per-record reconciliation, a pure function of the record id and the SLA
threshold.  `delay = 100 + Math.floor(rand() * 2400)`: with `rand() = u/2^32`
(`u < 2^32`), the float product has at most 39 significant bits, hence is
exact, and the floor equals `u * 2400 / 2^32` in integer arithmetic.
`ok = rand() > 0.12`: the double literal `0.12` is exactly
`8646911284551352 / 2^56`, and `u / 2^32 > 8646911284551352 / 2^56` iff
`u * 2^24 > 8646911284551352`. -/
def ackOf (slaMs : ℚ) (id : String) : AckResult :=
  let seed := crc32 (codeUnits id)
  let d1 := mulberry32 seed
  let d2 := mulberry32 d1.1
  let delay := 100 + (d1.2 * 2400) / 4294967296
  let ok : Bool := decide (8646911284551352 < d2.2 * 16777216)
  { id := id
    ok := ok
    ackCode := if ok then 200 else 500
    delay := delay
    sla := decide ((delay : ℚ) ≤ slaMs) }

/-- An audit-log entry (src/app.js `logAudit`). -/
structure AuditEntry where
  time : String
  runId : String
  stage : String
  status : String
  recordId : String
  checksum : String
  notes : String
  deriving DecidableEq, Repr

/-- The audit checksum: `crc32` of the composite string
`runId|stage|recordId|notes`, rendered as 8 zero-padded lowercase hex
characters. -/
def auditChecksum (runId stage recordId notes : String) : String :=
  hex8 (crc32 (codeUnits (runId ++ "|" ++ stage ++ "|" ++ recordId ++ "|" ++ notes)))

/-- `logAudit` from src/app.js, as the entry it appends.  The `time` field is
the host clock (`nowIso()`), passed in as `timeIso`.  The third source
parameter (`outcome`) is accepted and ignored, exactly as in the source. -/
def logAudit (timeIso runId stage status outcome recordId notes : String) : AuditEntry :=
  let _ := outcome
  { time := timeIso
    runId := runId
    stage := stage
    status := status
    recordId := recordId
    checksum := auditChecksum runId stage recordId notes
    notes := notes }

/-! ### Clinical data model and normalization -/

/-- A canonical sample record as produced by `normalizeRecord` in src/app.js.
`value` models a JS `number` (`none` = NaN): after normalization the field
always has JS type `number`. -/
structure NormalizedSample where
  id : String
  patientId : String
  specimenType : String
  status : String
  value : Option ℚ
  unit : String
  collectedAt : String
  accession : String
  source : String
  deriving DecidableEq, Repr

/-- A raw input record at the untyped decode boundary.  String fields are
`none` when the key is absent (JS `undefined`); `value` carries the result of
the host numeric coercion (`none` models NaN). -/
structure RawRecord where
  id : Option String
  patientId : Option String
  specimenType : Option String
  status : Option String
  value : Option ℚ
  unit : Option String
  collectedAt : Option String
  accession : Option String
  source : Option String
  deriving DecidableEq, Repr

/-- `normalizeRecord` from src/app.js: trims strings, uppercases enum-like
fields, keeps the numeric value (already coerced), defaults `accession` to
the empty string and `source` to `"json"`. -/
def normalizeRecord (r : RawRecord) : NormalizedSample :=
  { id := (r.id.getD "").trim
    patientId := (r.patientId.getD "").trim
    specimenType := (r.specimenType.getD "").trim.toUpper
    status := (r.status.getD "").trim.toUpper
    value := r.value
    unit := (r.unit.getD "").trim.toUpper
    collectedAt := (r.collectedAt.getD "").trim
    accession := match r.accession with
      | none => ""
      | some a => a.trim.toUpper
    source := (r.source.getD "json").toLower }

/-- `ValidationError` entries pushed by `addError` in src/app.js. -/
structure ValidationError where
  idx : Nat
  id : String
  code : String
  message : String
  field : String
  deriving DecidableEq, Repr

/-- A quarantine bin entry `{record, reason, code}`. -/
structure QuarantineEntry where
  record : NormalizedSample
  reason : String
  code : String
  deriving DecidableEq, Repr

/-- A conditional singleton list: the translation of one `if (c) addError(...)`
site. -/
def errIf (c : Prop) [Decidable c] (e : ValidationError) : List ValidationError :=
  if c then [e] else []

/-! ### Validation patterns (the regexes of src/app.js) -/

def isDigitCh (c : Char) : Bool := decide ('0' ≤ c ∧ c ≤ '9')

/-- Character class of `/^[A-Za-z0-9\-_]{4,40}$/`. -/
def isIdChar (c : Char) : Bool :=
  decide (('A' ≤ c ∧ c ≤ 'Z') ∨ ('a' ≤ c ∧ c ≤ 'z') ∨ ('0' ≤ c ∧ c ≤ '9') ∨ c = '-' ∨ c = '_')

/-- `idPattern` from src/app.js. -/
def idPattern (s : String) : Bool :=
  s.data.all isIdChar && decide (4 ≤ s.length ∧ s.length ≤ 40)

/-- Character class of `/^[A-Z0-9\-]{8,30}$/`. -/
def isAccChar (c : Char) : Bool :=
  decide (('A' ≤ c ∧ c ≤ 'Z') ∨ ('0' ≤ c ∧ c ≤ '9') ∨ c = '-')

/-- `accessionPattern` from src/app.js (the empty string is accepted). -/
def accessionPattern (s : String) : Bool :=
  decide (s = "") || (s.data.all isAccChar && decide (8 ≤ s.length ∧ s.length ≤ 30))

/-- Matches `\d*Z` at the end of the input. -/
def digitsThenZ : List Char → Bool
  | ['Z'] => true
  | c :: rest => isDigitCh c && digitsThenZ rest
  | [] => false

/-- Matches `(\.\d+)?Z`: an optional fractional part followed by Z. -/
def isoMs : List Char → Bool
  | ['Z'] => true
  | '.' :: c :: rest => isDigitCh c && digitsThenZ rest
  | _ => false

/-- Matches `(:\d{2}(\.\d+)?)?Z`: optional seconds with fraction, then Z. -/
def isoSecFrac : List Char → Bool
  | ['Z'] => true
  | ':' :: s1 :: s2 :: rest => isDigitCh s1 && isDigitCh s2 && isoMs rest
  | _ => false

/-- `isIsoDate` from src/app.js:
`/^\d{4}-\d{2}-\d{2}T\d{2}:\d{2}(:\d{2}(?:\.\d+)?)?Z$/`. -/
def isIsoDate (s : String) : Bool :=
  match s.data with
  | y1 :: y2 :: y3 :: y4 :: '-' :: m1 :: m2 :: '-' :: d1 :: d2 :: 'T' ::
      h1 :: h2 :: ':' :: n1 :: n2 :: rest =>
    isDigitCh y1 && isDigitCh y2 && isDigitCh y3 && isDigitCh y4 &&
    isDigitCh m1 && isDigitCh m2 && isDigitCh d1 && isDigitCh d2 &&
    isDigitCh h1 && isDigitCh h2 && isDigitCh n1 && isDigitCh n2 &&
    isoSecFrac rest
  | _ => false

/-! ### A model of the host `Date.parse` on strict-ISO UTC strings -/

def digitVal (c : Char) : Nat := c.toNat - 48

/-- Proleptic-Gregorian day count from the Unix epoch (civil-from-days
inverse), with floor division so negative years are handled uniformly. -/
def daysFromCivil (y : Int) (m d : Nat) : Int :=
  let y' : Int := if m ≤ 2 then y - 1 else y
  let era : Int := Int.fdiv y' 400
  let yoe : Int := y' - era * 400
  let doy : Int := ((153 * ((m + 9) % 12) + 2) / 5 + d - 1 : Nat)
  let doe : Int := yoe * 365 + Int.fdiv yoe 4 - Int.fdiv yoe 100 + doy
  era * 146097 + doe - 719468

def isLeap (y : Int) : Bool :=
  decide ((Int.emod y 4 = 0 ∧ Int.emod y 100 ≠ 0) ∨ Int.emod y 400 = 0)

def daysInMonth (y : Int) (m : Nat) : Nat :=
  if m = 2 then (if isLeap y then 29 else 28)
  else if m = 4 ∨ m = 6 ∨ m = 9 ∨ m = 11 then 30
  else 31

/-- Milliseconds from the fractional digits (first three digits, right-padded
with zeros, as the host truncates). -/
def msOfFrac : List Char → Nat
  | [] => 0
  | [a] => digitVal a * 100
  | [a, b] => digitVal a * 100 + digitVal b * 10
  | a :: b :: c :: _ => digitVal a * 100 + digitVal b * 10 + digitVal c

/-- Seconds and milliseconds from the tail after the minutes field. -/
def secMsOf : List Char → Option (Nat × Nat)
  | ['Z'] => some (0, 0)
  | ':' :: s1 :: s2 :: rest =>
    if isDigitCh s1 && isDigitCh s2 then
      match rest with
      | ['Z'] => some (digitVal s1 * 10 + digitVal s2, 0)
      | '.' :: c :: ds =>
        if isDigitCh c && digitsThenZ ds then
          some (digitVal s1 * 10 + digitVal s2, msOfFrac (c :: ds.takeWhile isDigitCh))
        else none
      | _ => none
    else none
  | _ => none

/-- Models the host `Date.parse` on the strict ISO-8601 UTC format accepted by
`isIsoDate`; out-of-range calendar components yield `none` (NaN). -/
def dateParse (s : String) : Option Int :=
  match s.data with
  | y1 :: y2 :: y3 :: y4 :: '-' :: mo1 :: mo2 :: '-' :: d1 :: d2 :: 'T' ::
      h1 :: h2 :: ':' :: n1 :: n2 :: rest =>
    if isDigitCh y1 && isDigitCh y2 && isDigitCh y3 && isDigitCh y4 &&
       isDigitCh mo1 && isDigitCh mo2 && isDigitCh d1 && isDigitCh d2 &&
       isDigitCh h1 && isDigitCh h2 && isDigitCh n1 && isDigitCh n2 then
      match secMsOf rest with
      | none => none
      | some (sec, ms) =>
        let y : Int := (digitVal y1 * 1000 + digitVal y2 * 100 + digitVal y3 * 10 + digitVal y4 : Nat)
        let mo := digitVal mo1 * 10 + digitVal mo2
        let da := digitVal d1 * 10 + digitVal d2
        let ho := digitVal h1 * 10 + digitVal h2
        let mi := digitVal n1 * 10 + digitVal n2
        if 1 ≤ mo ∧ mo ≤ 12 ∧ 1 ≤ da ∧ da ≤ daysInMonth y mo ∧
           (ho ≤ 23 ∨ (ho = 24 ∧ mi = 0 ∧ sec = 0 ∧ ms = 0)) ∧ mi ≤ 59 ∧ sec ≤ 59 then
          some (daysFromCivil y mo da * 86400000 +
                (ho * 3600000 + mi * 60000 + sec * 1000 + ms : Nat))
        else none
    else none
  | _ => none

/-! ### Validation rules (src/app.js `validateRecords`, lines 249-322) -/

def SPECIMEN : List String := ["BLOOD", "URINE", "SWAB", "SALIVA", "PLASMA"]
def STATUS : List String := ["RECEIVED", "IN_PROGRESS", "REPORTED"]
def UNIT : List String := ["MG/DL", "MMOL/L", "IU/L", "CELLS/µL"]

/-- Models the host number-to-text rendering used only inside free-text
messages and serialized notes; no theorem depends on this text. -/
def qToStr (q : ℚ) : String :=
  if q.den = 1 then toString q.num else toString q.num ++ "/" ++ toString q.den

/-- `r.id || row_idx+1`: the identifier used in error entries. -/
def rowId (idx : Nat) (r : NormalizedSample) : String :=
  if r.id = "" then "row_" ++ toString (idx + 1) else r.id

/-- Required-field presence loop: `''`, `undefined`, `null`, or NaN for
`value`.  After normalization string fields can only be empty and `value` can
only be NaN, in source field order. -/
def requiredErrors (idx : Nat) (id : String) (r : NormalizedSample) : List ValidationError :=
  errIf (r.id = "") ⟨idx, id, "E001", "Required field \x27id\x27 is missing", "id"⟩ ++
  errIf (r.patientId = "") ⟨idx, id, "E001", "Required field \x27patientId\x27 is missing", "patientId"⟩ ++
  errIf (r.specimenType = "") ⟨idx, id, "E001", "Required field \x27specimenType\x27 is missing", "specimenType"⟩ ++
  errIf (r.status = "") ⟨idx, id, "E001", "Required field \x27status\x27 is missing", "status"⟩ ++
  errIf (r.value = none) ⟨idx, id, "E001", "Required field \x27value\x27 is missing", "value"⟩ ++
  errIf (r.unit = "") ⟨idx, id, "E001", "Required field \x27unit\x27 is missing", "unit"⟩ ++
  errIf (r.collectedAt = "") ⟨idx, id, "E001", "Required field \x27collectedAt\x27 is missing", "collectedAt"⟩

/-- Enumeration membership, only checked on non-empty (truthy) fields. -/
def enumErrors (idx : Nat) (id : String) (r : NormalizedSample) : List ValidationError :=
  errIf (r.specimenType ≠ "" ∧ r.specimenType ∉ SPECIMEN)
    ⟨idx, id, "E002", "Invalid specimenType \x27" ++ r.specimenType ++ "\x27", "specimenType"⟩ ++
  errIf (r.status ≠ "" ∧ r.status ∉ STATUS)
    ⟨idx, id, "E002", "Invalid status \x27" ++ r.status ++ "\x27", "status"⟩ ++
  errIf (r.unit ≠ "" ∧ r.unit ∉ UNIT)
    ⟨idx, id, "E002", "Invalid unit \x27" ++ r.unit ++ "\x27", "unit"⟩

/-- Numeric range checks, guarded by `typeof r.value === 'number' &&
!Number.isNaN(r.value)`, i.e. by `value` not being NaN. -/
def rangeErrors (idx : Nat) (id : String) (r : NormalizedSample) : List ValidationError :=
  match r.value with
  | none => []
  | some q =>
    errIf (q < 0) ⟨idx, id, "E003", "Value cannot be negative: " ++ qToStr q, "value"⟩ ++
    errIf (1000000 < q) ⟨idx, id, "E003", "Value out of range: " ++ qToStr q, "value"⟩

/-- The plausibility check, source line 282:
`if (r.status === 'REPORTED' && !(typeof r.value === 'number') || Number.isNaN(r.value))`.
JS `&&` binds tighter than `||`, and after `normalizeRecord` the value always
has JS type `number`, so the left disjunct is identically false (kept here
verbatim as `∧ False`) and the test fires exactly on NaN. -/
def plausErrors (idx : Nat) (id : String) (r : NormalizedSample) : List ValidationError :=
  errIf ((r.status = "REPORTED" ∧ False) ∨ r.value = none)
    ⟨idx, id, "E005", "REPORTED requires a numeric value", "value"⟩

/-- Format checks, each guarded by the field being non-empty (truthy). -/
def formatErrors (idx : Nat) (id : String) (r : NormalizedSample) : List ValidationError :=
  errIf (r.id ≠ "" ∧ idPattern r.id = false) ⟨idx, id, "E007", "Invalid id format", "id"⟩ ++
  errIf (r.accession ≠ "" ∧ accessionPattern r.accession = false)
    ⟨idx, id, "E007", "Invalid accession format", "accession"⟩ ++
  errIf (r.collectedAt ≠ "" ∧ isIsoDate r.collectedAt = false)
    ⟨idx, id, "E007", "Invalid ISO timestamp (collectedAt)", "collectedAt"⟩

def threeYearsMs : Int := 1000 * 60 * 60 * 24 * 365 * 3

/-- `t < lastTs` where `lastTs` starts at `-Infinity` (modelled as `none`). -/
def ltOpt (t : Int) : Option Int → Bool
  | none => false
  | some m => decide (t < m)

/-- Timestamp plausibility block (source lines 292-301), entered only when the
ISO format matched; an unparseable timestamp is its own E007. -/
def timeErrors (idx : Nat) (id : String) (r : NormalizedSample) (now : Int)
    (lastTs : Option Int) : List ValidationError :=
  if isIsoDate r.collectedAt then
    match dateParse r.collectedAt with
    | none => [⟨idx, id, "E007", "Unparseable collectedAt", "collectedAt"⟩]
    | some t =>
      errIf (now < t) ⟨idx, id, "E004", "collectedAt cannot be in the future", "collectedAt"⟩ ++
      errIf (t < now - threeYearsMs) ⟨idx, id, "E003", "collectedAt older than 3 years", "collectedAt"⟩ ++
      errIf (ltOpt t lastTs = true) ⟨idx, id, "E004", "Dataset chronology must be non-decreasing", "collectedAt"⟩
  else []

/-- `lastTs = Math.max(lastTs, t)`, performed whenever the timestamp matched
the ISO format and parsed (regardless of any other error on the record). -/
def updLast (r : NormalizedSample) (lastTs : Option Int) : Option Int :=
  if isIsoDate r.collectedAt then
    match dateParse r.collectedAt with
    | none => lastTs
    | some t => match lastTs with
      | none => some t
      | some m => some (max m t)
  else lastTs

/-- The duplicate key `id + "::" + (accession || '')`; after normalization
`accession` is already a string, with the empty string staying empty. -/
def dupKey (r : NormalizedSample) : String := r.id ++ "::" ++ r.accession

/-- `seenKey.add(dedupKey)` on a `Set` modelled as a duplicate-free list. -/
def insertKey (k : String) (seen : List String) : List String :=
  if k ∈ seen then seen else seen ++ [k]

def dupErrors (idx : Nat) (id : String) (r : NormalizedSample) (seen : List String) :
    List ValidationError :=
  errIf (dupKey r ∈ seen) ⟨idx, id, "E006", "Duplicate id+accession", "id/accession"⟩

/-- All per-record rules that precede the duplicate check, in source order. -/
def preDupErrors (idx : Nat) (id : String) (r : NormalizedSample) (now : Int)
    (lastTs : Option Int) : List ValidationError :=
  requiredErrors idx id r ++ enumErrors idx id r ++ rangeErrors idx id r ++
  plausErrors idx id r ++ formatErrors idx id r ++ timeErrors idx id r now lastTs

/-- Every error the loop body at index `idx` pushes for record `r`, given the
accumulated chronology and duplicate state. -/
def recordErrors (idx : Nat) (id : String) (r : NormalizedSample) (now : Int)
    (lastTs : Option Int) (seen : List String) : List ValidationError :=
  preDupErrors idx id r now lastTs ++ dupErrors idx id r seen

/-! ### The validation fold over the record list -/

/-- Models the JSON string escaping performed by the host `JSON.stringify`
for the characters occurring in record fields. -/
def jsonEscape (s : String) : String :=
  ⟨(s.data.map fun c =>
      if c = '"' then ['\\', '"'] else if c = '\\' then ['\\', '\\'] else [c]).flatten⟩

def jsonStr (s : String) : String := "\"" ++ jsonEscape s ++ "\""

/-- JSON rendering of a JS number field; `JSON.stringify` renders NaN as
`null`. -/
def jsonNum : Option ℚ → String
  | none => "null"
  | some q => qToStr q

/-- `safeJsonStringify` applied to a normalized sample: `JSON.stringify` with
lexicographically sorted keys and indent 2. -/
def safeJsonRecord (r : NormalizedSample) : String :=
  "\x7b\n  \"accession\": " ++ jsonStr r.accession ++
  ",\n  \"collectedAt\": " ++ jsonStr r.collectedAt ++
  ",\n  \"id\": " ++ jsonStr r.id ++
  ",\n  \"patientId\": " ++ jsonStr r.patientId ++
  ",\n  \"source\": " ++ jsonStr r.source ++
  ",\n  \"specimenType\": " ++ jsonStr r.specimenType ++
  ",\n  \"status\": " ++ jsonStr r.status ++
  ",\n  \"unit\": " ++ jsonStr r.unit ++
  ",\n  \"value\": " ++ jsonNum r.value ++ "\n\x7d"

/-- The slice of mutable state touched by `validateRecords`: the global
error list, the per-code tally and the audit log, together with the loop
locals `valid`, `quarantineBin`, `seenKey` and `lastTs`. -/
structure ValidateState where
  errors : List ValidationError
  errorByCode : List (String × Nat)
  audit : List AuditEntry
  valid : List NormalizedSample
  quar : List QuarantineEntry
  seen : List String
  lastTs : Option Int
  deriving Repr

/-- `STCDP.metrics.errorByCode[code] = (… || 0) + 1`, with JS object key
insertion order preserved. -/
def bumpCode (m : List (String × Nat)) (c : String) : List (String × Nat) :=
  if m.any fun p => decide (p.1 = c) then
    m.map fun p => if p.1 = c then (p.1, p.2 + 1) else p
  else m ++ [(c, 1)]

def bumpCodes (m : List (String × Nat)) (cs : List String) : List (String × Nat) :=
  cs.foldl bumpCode m

/-- One iteration of the `records.forEach((r, idx) => …)` body: push the
record's errors, log the pre-transform checksum, and place the record into
exactly one of `valid`/`quarantineBin` according to
`STCDP.errors.some(e => e.id === id && e.idx === idx)`. -/
def validateStep (runId timeIso : String) (now : Int) (s : ValidateState) (idx : Nat)
    (r : NormalizedSample) : ValidateState :=
  let id := rowId idx r
  let errs := recordErrors idx id r now s.lastTs s.seen
  let allErrs := s.errors ++ errs
  let hadErrors := allErrs.any fun e => decide (e.id = id) && decide (e.idx = idx)
  { errors := allErrs
    errorByCode := bumpCodes s.errorByCode (errs.map (·.code))
    audit := s.audit ++ [logAudit timeIso runId "validate:item" "ok" "ok" r.id
      ("preCRC=" ++ hex8 (crc32 (codeUnits (safeJsonRecord r))))]
    valid := if hadErrors then s.valid else s.valid ++ [r]
    quar := if hadErrors then s.quar ++ [⟨r, "Validation failure", "E005"⟩] else s.quar
    seen := insertKey (dupKey r) s.seen
    lastTs := updLast r s.lastTs }

/-- The `forEach` loop from index `idx` onwards. -/
def validateFrom (runId timeIso : String) (now : Int) :
    ValidateState → Nat → List NormalizedSample → ValidateState
  | s, _, [] => s
  | s, idx, r :: rs =>
    validateFrom runId timeIso now (validateStep runId timeIso now s idx r) (idx + 1) rs

/-- The state at entry of `validateRecords` during a run: the run's error
list, tally, seen-key set and `lastTs` are fresh; `audit0` is whatever the
audit log already holds. -/
def initValState (audit0 : List AuditEntry) : ValidateState :=
  { errors := [], errorByCode := [], audit := audit0, valid := [], quar := [],
    seen := [], lastTs := none }

/-- `validateRecords` from src/app.js (lines 249-322), with `Date.now()`
passed in as `now` and the run-scoped globals made explicit. -/
def validateRecords (runId timeIso : String) (now : Int) (audit0 : List AuditEntry)
    (records : List NormalizedSample) : ValidateState :=
  validateFrom runId timeIso now (initValState audit0) 0 records

/-! ### Intake, processing, reconciliation (run-level pipeline) -/

/-- `RunMetrics` (the `STCDP.metrics` object). -/
structure Metrics where
  total : Nat
  valid : Nat
  errors : Nat
  quarantine : Nat
  acked : Nat
  slaBreaches : Nat
  errorByCode : List (String × Nat)
  ackDelays : List Nat
  deriving Repr

def emptyMetrics : Metrics := ⟨0, 0, 0, 0, 0, 0, [], []⟩

/-- A processed sample: the normalized fields plus `processedAt`,
`normalizedValue` and `category`. -/
structure ProcessedSample where
  id : String
  patientId : String
  specimenType : String
  status : String
  value : Option ℚ
  unit : String
  collectedAt : String
  accession : String
  source : String
  processedAt : String
  normalizedValue : Option ℚ
  category : String
  deriving DecidableEq, Repr

/-- The run-scoped global state `STCDP`. -/
structure RunState where
  runId : String
  rawInput : String
  inputFormat : String
  records : List NormalizedSample
  validRecords : List NormalizedSample
  quarantined : List QuarantineEntry
  errors : List ValidationError
  processed : List ProcessedSample
  acks : List AckResult
  audit : List AuditEntry
  metrics : Metrics
  deriving Repr

/-- Outcome of the host `JSON.parse` call inside `parseJson`: it throws, or
returns a non-array, or returns an array of raw objects. -/
inductive JsonParseOutcome where
  | threw (msg : String)
  | nonArray
  | array (rs : List RawRecord)
  deriving Repr

/-- Outcome of the host `DOMParser` boundary inside `parseXml`: a parser
error document, a document with no `samples > sample` nodes, a thrown
exception, or the extracted per-sample fields (text extraction and the
`Number()` coercion of `value` happen at this host boundary). -/
inductive XmlParseOutcome where
  | malformed
  | noSamples
  | threw (msg : String)
  | samples (rs : List RawRecord)
  deriving Repr

/-- `parseJson` from src/app.js (lines 106-117), over the host outcome. -/
def parseJson : JsonParseOutcome → Except String (List NormalizedSample)
  | .threw msg => .error ("E010 JSON parse error: " ++ msg)
  | .nonArray => .error "JSON must be an array of clinical sample records."
  | .array rs => .ok (rs.map fun d => normalizeRecord { d with source := some "json" })

/-- `parseXml` from src/app.js (lines 119-148), over the host outcome. -/
def parseXml : XmlParseOutcome → Except String (List NormalizedSample)
  | .malformed => .error "E009 XML parse error: Malformed XML."
  | .noSamples => .error "XML must contain <samples><sample>..</sample></samples>."
  | .threw msg => .error ("E009 XML parse error: " ++ msg)
  | .samples rs => .ok (rs.map fun d => normalizeRecord { d with source := some "xml" })

/-- The `{ok, message}` result of `intakeAndValidate`. -/
structure IntakeResult where
  ok : Bool
  message : String
  deriving DecidableEq, Repr

/-- `intakeAndValidate` from src/app.js (lines 150-185): reset the run state,
parse, and on success validate; `runIdNew` models `createRunId()`, `timeIso`
the host clock and `now` `Date.now()`. -/
def intakeAndValidate (runIdNew timeIso : String) (now : Int) (raw fmt : String)
    (jOut : JsonParseOutcome) (xOut : XmlParseOutcome) : IntakeResult × RunState :=
  let base : RunState :=
    { runId := runIdNew, rawInput := raw, inputFormat := fmt, records := [],
      validRecords := [], quarantined := [], errors := [], processed := [],
      acks := [], audit := [], metrics := emptyMetrics }
  match if fmt = "xml" then parseXml xOut else parseJson jOut with
  | .error msg =>
    ({ ok := false, message := msg },
     { base with
        audit := [logAudit timeIso runIdNew "intake" "-" "error" "-" msg]
        metrics := { emptyMetrics with errors := 1 } })
  | .ok records =>
    let audit0 := [logAudit timeIso runIdNew "intake" "-" "ok" "-"
      ("Ingested " ++ toString records.length ++ " records via " ++ fmt)]
    let v := validateRecords runIdNew timeIso now audit0 records
    ({ ok := true
       message := "Ingested " ++ toString records.length ++ " records. Valid: " ++
         toString v.valid.length ++ ". Errors: " ++ toString v.errors.length ++
         ". Quarantine: " ++ toString v.quar.length ++ "." },
     { base with
        records := records
        validRecords := v.valid
        quarantined := v.quar
        errors := v.errors
        audit := v.audit ++ [logAudit timeIso runIdNew "validate" "-" "ok" "-"
          ("Valid=" ++ toString v.valid.length ++ " Errors=" ++ toString v.errors.length ++
           " Quarantine=" ++ toString v.quar.length)]
        metrics := { emptyMetrics with
          total := records.length
          valid := v.valid.length
          errors := v.errors.length
          quarantine := v.quar.length
          errorByCode := v.errorByCode } })

/-- Leading-segment match of character lists. -/
def leadMatch : List Char → List Char → Bool
  | [], _ => true
  | _ :: _, [] => false
  | a :: as, b :: bs => a == b && leadMatch as bs

/-- JS `String.includes`: the needle occurs somewhere in the haystack. -/
def containsSeq (needle : List Char) : List Char → Bool
  | [] => leadMatch needle []
  | b :: bs => leadMatch needle (b :: bs) || containsSeq needle bs

/-- The category rule of `processRecords`: cells-per-microliter units are
HEMATOLOGY, remaining SWAB records MICROBIOLOGY, the rest CHEMISTRY. -/
def categoryOf (r : NormalizedSample) : String :=
  if containsSeq "/µL".data r.unit.data then "HEMATOLOGY"
  else if r.specimenType = "SWAB" then "MICROBIOLOGY"
  else "CHEMISTRY"

/-- One processed sample: spread of the record plus `processedAt`,
`normalizedValue = Number(r.value)` (the identity on a JS number) and the
category. -/
def processOne (timeIso : String) (r : NormalizedSample) : ProcessedSample :=
  { id := r.id, patientId := r.patientId, specimenType := r.specimenType,
    status := r.status, value := r.value, unit := r.unit,
    collectedAt := r.collectedAt, accession := r.accession, source := r.source,
    processedAt := timeIso, normalizedValue := r.value, category := categoryOf r }

/-- `safeJsonStringify` applied to a processed sample (sorted keys, indent 2). -/
def safeJsonProcessed (p : ProcessedSample) : String :=
  "\x7b\n  \"accession\": " ++ jsonStr p.accession ++
  ",\n  \"category\": " ++ jsonStr p.category ++
  ",\n  \"collectedAt\": " ++ jsonStr p.collectedAt ++
  ",\n  \"id\": " ++ jsonStr p.id ++
  ",\n  \"normalizedValue\": " ++ jsonNum p.normalizedValue ++
  ",\n  \"patientId\": " ++ jsonStr p.patientId ++
  ",\n  \"processedAt\": " ++ jsonStr p.processedAt ++
  ",\n  \"source\": " ++ jsonStr p.source ++
  ",\n  \"specimenType\": " ++ jsonStr p.specimenType ++
  ",\n  \"status\": " ++ jsonStr p.status ++
  ",\n  \"unit\": " ++ jsonStr p.unit ++
  ",\n  \"value\": " ++ jsonNum p.value ++ "\n\x7d"

/-- `processRecords` from src/app.js (lines 327-348): transform the valid
list, log one post-transform checksum per record and a stage summary, and
replace the processed list. -/
def processRecords (timeIso : String) (st : RunState) : Nat × RunState :=
  let out := st.validRecords.map (processOne timeIso)
  let entries := out.map fun p =>
    logAudit timeIso st.runId "process:item" "ok" "ok" p.id
      ("postCRC=" ++ hex8 (crc32 (codeUnits (safeJsonProcessed p))))
  (out.length,
   { st with
      processed := out
      audit := st.audit ++ entries ++
        [logAudit timeIso st.runId "process" "-" "ok" "-"
          ("Processed " ++ toString out.length ++ " records")] })

/-- Accumulator of the reconciliation loop. -/
structure ReconAcc where
  acks : List AckResult
  delays : List Nat
  acked : Nat
  breaches : Nat
  audit : List AuditEntry
  deriving Repr

/-- One iteration of the `for (const r of STCDP.processed)` loop (lines
359-375). -/
def reconStep (timeIso runId : String) (slaMs : ℚ) (acc : ReconAcc)
    (r : ProcessedSample) : ReconAcc :=
  let a := ackOf slaMs r.id
  { acks := acc.acks ++ [a]
    delays := acc.delays ++ [a.delay]
    acked := acc.acked + (if a.ok then 1 else 0)
    breaches := acc.breaches + (if a.sla then 0 else 1)
    audit := acc.audit ++ [logAudit timeIso runId "reconcile:item"
      (if a.ok then "ok" else "error") (if a.ok then "ok" else "failed") r.id
      ("ack=" ++ toString a.ackCode ++ " delay=" ++ toString a.delay ++ "ms sla=" ++
       (if a.sla then "met" else "breach"))] }

/-- `reconcileRecords` from src/app.js (lines 353-380): reset the ack
metrics, simulate every processed record, replace the ack list and append the
per-item and summary audit entries. -/
def reconcileRecords (timeIso : String) (st : RunState) (slaMs : ℚ) : Nat × RunState :=
  let acc := st.processed.foldl (reconStep timeIso st.runId slaMs) ⟨[], [], 0, 0, []⟩
  (acc.acks.length,
   { st with
      acks := acc.acks
      audit := st.audit ++ acc.audit ++
        [logAudit timeIso st.runId "reconcile" "-" "ok" "-"
          ("ACKed=" ++ toString acc.acked ++ " SLA breaches=" ++ toString acc.breaches)]
      metrics := { st.metrics with
        acked := acc.acked
        slaBreaches := acc.breaches
        ackDelays := acc.delays } })

/-- One full run: intake-and-validate, then process, then reconcile. -/
def runPipeline (runIdNew timeIso : String) (now : Int) (raw fmt : String)
    (jOut : JsonParseOutcome) (xOut : XmlParseOutcome) (slaMs : ℚ) : RunState :=
  let st1 := (intakeAndValidate runIdNew timeIso now raw fmt jOut xOut).2
  let st2 := (processRecords timeIso st1).2
  (reconcileRecords timeIso st2 slaMs).2

/-! ### Per-row specification of the validation fold -/

/-- The rows of a validation run: each record paired with its index and the
exact error list the loop body pushes for it, with the chronology and
duplicate state threaded in input order. -/
def rowErrs (now : Int) : Nat → Option Int → List String → List NormalizedSample →
    List (Nat × NormalizedSample × List ValidationError)
  | _, _, _, [] => []
  | idx, lastTs, seen, r :: rs =>
    (idx, r, recordErrors idx (rowId idx r) r now lastTs seen) ::
      rowErrs now (idx + 1) (updLast r lastTs) (insertKey (dupKey r) seen) rs

/-- The chronology state after folding `updLast` over a list of records. -/
def lastAfter (lastTs : Option Int) (rs : List NormalizedSample) : Option Int :=
  rs.foldl (fun acc r => updLast r acc) lastTs

/-- The duplicate-key state after folding `insertKey` over a list of records. -/
def seenAfter (seen : List String) (rs : List NormalizedSample) : List String :=
  rs.foldl (fun acc r => insertKey (dupKey r) acc) seen

/-- The running-maximum timestamp accumulated over the records strictly
before index `i`. -/
def lastBefore (records : List NormalizedSample) (i : Nat) : Option Int :=
  lastAfter none (records.take i)

/-- The duplicate-key set accumulated over the records strictly before
index `i`. -/
def seenBefore (records : List NormalizedSample) (i : Nat) : List String :=
  seenAfter [] (records.take i)

/-- Shorthand for the error list the loop body pushes at index `idx`. -/
def stepErrs (now : Int) (s : ValidateState) (idx : Nat) (r : NormalizedSample) :
    List ValidationError :=
  recordErrors idx (rowId idx r) r now s.lastTs s.seen

/-- The per-entry integrity property: the stamped checksum is the CRC-32 of
the entry's own composite string, rendered as 8 hex characters. -/
def auditOk (e : AuditEntry) : Prop :=
  e.checksum = auditChecksum e.runId e.stage e.recordId e.notes ∧ e.checksum.length = 8

/-! ### Concrete fixtures used by the evaluation theorems -/

/-- The concrete record exhibiting the plausibility-rule slip: status is not
REPORTED, but the value is NaN. -/
def c2Record : NormalizedSample :=
  { id := "SMP-9001", patientId := "PAT-9", specimenType := "BLOOD", status := "RECEIVED",
    value := none, unit := "MG/DL", collectedAt := "2026-01-15T09:00:00Z",
    accession := "", source := "json" }

/-- A well-formed sample record fixture. -/
def c4r : NormalizedSample :=
  { id := "SMP-1001", patientId := "PAT-001", specimenType := "BLOOD", status := "RECEIVED",
    value := some 85, unit := "MG/DL", collectedAt := "2026-01-15T09:00:00Z",
    accession := "ACC-2026-0001", source := "json" }

/-- A second record with a distinct key but the same `collectedAt`. -/
def c4r2 : NormalizedSample := { c4r with id := "SMP-1002", accession := "ACC-2026-0002" }

/-- A record whose value sits exactly on the inclusive upper bound. -/
def c5rOk : NormalizedSample := { c4r with value := some 1000000 }

/-- A record whose value is 1,000,000.01. -/
def c5rBad : NormalizedSample := { c4r with value := some ((100000001 : ℚ) / 100) }

/-- A record duplicating the key of `c4r`. -/
def c6r2 : NormalizedSample := { c4r with unit := "XYZ" }

/-- A processed-sample fixture. -/
def sampleProcessed : ProcessedSample :=
  { id := "SMP-1001", patientId := "PAT-001", specimenType := "BLOOD", status := "RECEIVED",
    value := some 85, unit := "MG/DL", collectedAt := "2026-01-15T09:00:00Z",
    accession := "ACC-2026-0001", source := "json", processedAt := "t",
    normalizedValue := some 85, category := "CHEMISTRY" }

/-- A run state holding only a processed list. -/
def runWith (ps : List ProcessedSample) : RunState :=
  { runId := "runW", rawInput := "", inputFormat := "json", records := [],
    validRecords := [], quarantined := [], errors := [], processed := ps,
    acks := [], audit := [], metrics := emptyMetrics }

theorem mem_errIf {c : Prop} [Decidable c] {e x : ValidationError} :
    x ∈ errIf c e ↔ c ∧ x = e := by
  by_cases h : c <;> simp [errIf, h]

theorem requiredErrors_mem {idx : Nat} {id : String} {r : NormalizedSample}
    {e : ValidationError} (he : e ∈ requiredErrors idx id r) :
    e.idx = idx ∧ e.id = id ∧ e.code = "E001" := by
  simp only [requiredErrors, List.append_assoc, List.mem_append, mem_errIf] at he
  rcases he with ⟨-, rfl⟩ | ⟨-, rfl⟩ | ⟨-, rfl⟩ | ⟨-, rfl⟩ | ⟨-, rfl⟩ | ⟨-, rfl⟩ | ⟨-, rfl⟩ <;>
    exact ⟨rfl, rfl, rfl⟩

theorem enumErrors_mem {idx : Nat} {id : String} {r : NormalizedSample}
    {e : ValidationError} (he : e ∈ enumErrors idx id r) :
    e.idx = idx ∧ e.id = id ∧ e.code = "E002" := by
  simp only [enumErrors, List.append_assoc, List.mem_append, mem_errIf] at he
  rcases he with ⟨-, rfl⟩ | ⟨-, rfl⟩ | ⟨-, rfl⟩ <;> exact ⟨rfl, rfl, rfl⟩

theorem rangeErrors_mem {idx : Nat} {id : String} {r : NormalizedSample}
    {e : ValidationError} (he : e ∈ rangeErrors idx id r) :
    e.idx = idx ∧ e.id = id ∧ e.code = "E003" ∧ e.field = "value" := by
  rcases hv : r.value with - | q <;> rw [rangeErrors, hv] at he
  · simp at he
  · simp only [List.mem_append, mem_errIf] at he
    rcases he with ⟨-, rfl⟩ | ⟨-, rfl⟩ <;> exact ⟨rfl, rfl, rfl, rfl⟩

theorem plausErrors_mem {idx : Nat} {id : String} {r : NormalizedSample}
    {e : ValidationError} (he : e ∈ plausErrors idx id r) :
    e.idx = idx ∧ e.id = id ∧ e.code = "E005" := by
  simp only [plausErrors, mem_errIf] at he
  rcases he with ⟨-, rfl⟩
  exact ⟨rfl, rfl, rfl⟩

theorem formatErrors_mem {idx : Nat} {id : String} {r : NormalizedSample}
    {e : ValidationError} (he : e ∈ formatErrors idx id r) :
    e.idx = idx ∧ e.id = id ∧ e.code = "E007" := by
  simp only [formatErrors, List.append_assoc, List.mem_append, mem_errIf] at he
  rcases he with ⟨-, rfl⟩ | ⟨-, rfl⟩ | ⟨-, rfl⟩ <;> exact ⟨rfl, rfl, rfl⟩

theorem timeErrors_mem {idx : Nat} {id : String} {r : NormalizedSample} {now : Int}
    {lastTs : Option Int} {e : ValidationError} (he : e ∈ timeErrors idx id r now lastTs) :
    e.idx = idx ∧ e.id = id ∧ e.field = "collectedAt" ∧
      (e.code = "E007" ∨ e.code = "E004" ∨ e.code = "E003") := by
  rw [timeErrors] at he
  by_cases hiso : isIsoDate r.collectedAt
  · rw [if_pos hiso] at he
    rcases hp : dateParse r.collectedAt with - | t <;> rw [hp] at he
    · simp only [List.mem_singleton] at he
      subst he
      exact ⟨rfl, rfl, rfl, Or.inl rfl⟩
    · simp only [List.append_assoc, List.mem_append, mem_errIf] at he
      rcases he with ⟨-, rfl⟩ | ⟨-, rfl⟩ | ⟨-, rfl⟩
      · exact ⟨rfl, rfl, rfl, Or.inr (Or.inl rfl)⟩
      · exact ⟨rfl, rfl, rfl, Or.inr (Or.inr rfl)⟩
      · exact ⟨rfl, rfl, rfl, Or.inr (Or.inl rfl)⟩
  · rw [if_neg hiso] at he
    simp at he

theorem dupErrors_mem {idx : Nat} {id : String} {r : NormalizedSample}
    {seen : List String} {e : ValidationError} (he : e ∈ dupErrors idx id r seen) :
    e.idx = idx ∧ e.id = id ∧ e.code = "E006" := by
  simp only [dupErrors, mem_errIf] at he
  rcases he with ⟨-, rfl⟩
  exact ⟨rfl, rfl, rfl⟩

theorem preDupErrors_mem {idx : Nat} {id : String} {r : NormalizedSample} {now : Int}
    {lastTs : Option Int} {e : ValidationError} (he : e ∈ preDupErrors idx id r now lastTs) :
    e.idx = idx ∧ e.id = id ∧ e.code ≠ "E006" := by
  simp only [preDupErrors, List.append_assoc, List.mem_append] at he
  rcases he with h | h | h | h | h | h
  · obtain ⟨h1, h2, h3⟩ := requiredErrors_mem h
    exact ⟨h1, h2, by rw [h3]; decide⟩
  · obtain ⟨h1, h2, h3⟩ := enumErrors_mem h
    exact ⟨h1, h2, by rw [h3]; decide⟩
  · obtain ⟨h1, h2, h3, -⟩ := rangeErrors_mem h
    exact ⟨h1, h2, by rw [h3]; decide⟩
  · obtain ⟨h1, h2, h3⟩ := plausErrors_mem h
    exact ⟨h1, h2, by rw [h3]; decide⟩
  · obtain ⟨h1, h2, h3⟩ := formatErrors_mem h
    exact ⟨h1, h2, by rw [h3]; decide⟩
  · obtain ⟨h1, h2, -, h3⟩ := timeErrors_mem h
    rcases h3 with h3 | h3 | h3 <;> exact ⟨h1, h2, by rw [h3]; decide⟩

theorem recordErrors_mem {idx : Nat} {id : String} {r : NormalizedSample} {now : Int}
    {lastTs : Option Int} {seen : List String} {e : ValidationError}
    (he : e ∈ recordErrors idx id r now lastTs seen) : e.idx = idx ∧ e.id = id := by
  rw [recordErrors, List.mem_append] at he
  rcases he with h | h
  · obtain ⟨h1, h2, -⟩ := preDupErrors_mem h
    exact ⟨h1, h2⟩
  · obtain ⟨h1, h2, -⟩ := dupErrors_mem h
    exact ⟨h1, h2⟩

/-- The `STCDP.errors.some(e => e.id === id && e.idx === idx)` test reduces,
inside a run, to "this record pushed at least one error": prior errors carry
strictly smaller indices, and the current record's errors all carry `idx`. -/
theorem hadErrors_eq (s errs : List ValidationError) (idx : Nat) (id : String)
    (hs : ∀ e ∈ s, e.idx < idx) (he : ∀ e ∈ errs, e.idx = idx ∧ e.id = id) :
    ((s ++ errs).any fun e => decide (e.id = id) && decide (e.idx = idx)) = !errs.isEmpty := by
  have h1 : (s.any fun e => decide (e.id = id) && decide (e.idx = idx)) = false := by
    rw [List.any_eq_false]
    intro e hmem
    have hlt := hs e hmem
    simp [Nat.ne_of_lt hlt]
  rw [List.any_append, h1, Bool.false_or]
  cases errs with
  | nil => rfl
  | cons e es =>
    obtain ⟨h2, h3⟩ := he e (List.mem_cons_self e es)
    simp [h2, h3]

theorem validateStep_errors (runId timeIso : String) (now : Int) (s : ValidateState)
    (idx : Nat) (r : NormalizedSample) :
    (validateStep runId timeIso now s idx r).errors = s.errors ++ stepErrs now s idx r := rfl

theorem validateStep_lastTs (runId timeIso : String) (now : Int) (s : ValidateState)
    (idx : Nat) (r : NormalizedSample) :
    (validateStep runId timeIso now s idx r).lastTs = updLast r s.lastTs := rfl

theorem validateStep_seen (runId timeIso : String) (now : Int) (s : ValidateState)
    (idx : Nat) (r : NormalizedSample) :
    (validateStep runId timeIso now s idx r).seen = insertKey (dupKey r) s.seen := rfl

theorem validateStep_audit (runId timeIso : String) (now : Int) (s : ValidateState)
    (idx : Nat) (r : NormalizedSample) :
    (validateStep runId timeIso now s idx r).audit =
      s.audit ++ [logAudit timeIso runId "validate:item" "ok" "ok" r.id
        ("preCRC=" ++ hex8 (crc32 (codeUnits (safeJsonRecord r))))] := rfl

theorem validateStep_valid (runId timeIso : String) (now : Int) (s : ValidateState)
    (idx : Nat) (r : NormalizedSample) (hs : ∀ e ∈ s.errors, e.idx < idx) :
    (validateStep runId timeIso now s idx r).valid =
      if (stepErrs now s idx r).isEmpty then s.valid ++ [r] else s.valid := by
  have h := hadErrors_eq s.errors (stepErrs now s idx r) idx (rowId idx r) hs
    (fun e he => recordErrors_mem he)
  show (if (s.errors ++ stepErrs now s idx r).any
      (fun e => decide (e.id = rowId idx r) && decide (e.idx = idx)) then s.valid
    else s.valid ++ [r]) = _
  rw [h]
  cases (stepErrs now s idx r).isEmpty <;> simp

theorem validateStep_quar (runId timeIso : String) (now : Int) (s : ValidateState)
    (idx : Nat) (r : NormalizedSample) (hs : ∀ e ∈ s.errors, e.idx < idx) :
    (validateStep runId timeIso now s idx r).quar =
      if (stepErrs now s idx r).isEmpty then s.quar
      else s.quar ++ [⟨r, "Validation failure", "E005"⟩] := by
  have h := hadErrors_eq s.errors (stepErrs now s idx r) idx (rowId idx r) hs
    (fun e he => recordErrors_mem he)
  show (if (s.errors ++ stepErrs now s idx r).any
      (fun e => decide (e.id = rowId idx r) && decide (e.idx = idx)) then
      s.quar ++ [⟨r, "Validation failure", "E005"⟩] else s.quar) = _
  rw [h]
  cases (stepErrs now s idx r).isEmpty <;> simp

/-- Every error of a `validateStep` result is below the next index. -/
theorem validateStep_errors_lt (runId timeIso : String) (now : Int) (s : ValidateState)
    (idx : Nat) (r : NormalizedSample) (hs : ∀ e ∈ s.errors, e.idx < idx) :
    ∀ e ∈ (validateStep runId timeIso now s idx r).errors, e.idx < idx + 1 := by
  intro e he
  rw [validateStep_errors, List.mem_append] at he
  rcases he with h | h
  · exact Nat.lt_succ_of_lt (hs e h)
  · exact (recordErrors_mem h).1 ▸ Nat.lt_succ_self idx

theorem validateFrom_errors (runId timeIso : String) (now : Int) :
    ∀ (rs : List NormalizedSample) (s : ValidateState) (idx : Nat),
    (validateFrom runId timeIso now s idx rs).errors =
      s.errors ++ ((rowErrs now idx s.lastTs s.seen rs).map fun p => p.2.2).flatten := by
  intro rs
  induction rs with
  | nil => intro s idx; simp [validateFrom, rowErrs]
  | cons r rest ih =>
    intro s idx
    simp only [validateFrom]
    rw [ih, validateStep_errors, validateStep_lastTs, validateStep_seen]
    simp [rowErrs, stepErrs, List.append_assoc]

theorem validateFrom_audit (runId timeIso : String) (now : Int) :
    ∀ (rs : List NormalizedSample) (s : ValidateState) (idx : Nat),
    (validateFrom runId timeIso now s idx rs).audit =
      s.audit ++ rs.map fun r => logAudit timeIso runId "validate:item" "ok" "ok" r.id
        ("preCRC=" ++ hex8 (crc32 (codeUnits (safeJsonRecord r)))) := by
  intro rs
  induction rs with
  | nil => intro s idx; simp [validateFrom]
  | cons r rest ih =>
    intro s idx
    simp only [validateFrom]
    rw [ih, validateStep_audit]
    simp [List.append_assoc]

theorem validateFrom_count (runId timeIso : String) (now : Int) :
    ∀ (rs : List NormalizedSample) (s : ValidateState) (idx : Nat),
    (validateFrom runId timeIso now s idx rs).valid.length +
      (validateFrom runId timeIso now s idx rs).quar.length =
      s.valid.length + s.quar.length + rs.length := by
  intro rs
  induction rs with
  | nil => intro s idx; simp [validateFrom]
  | cons r rest ih =>
    intro s idx
    simp only [validateFrom]
    rw [ih]
    have : (validateStep runId timeIso now s idx r).valid.length +
        (validateStep runId timeIso now s idx r).quar.length =
        s.valid.length + s.quar.length + 1 := by
      simp only [validateStep]
      split_ifs <;> simp <;> omega
    rw [this]
    simp [List.length_cons]
    omega

theorem validateFrom_valid (runId timeIso : String) (now : Int) :
    ∀ (rs : List NormalizedSample) (s : ValidateState) (idx : Nat),
    (∀ e ∈ s.errors, e.idx < idx) →
    (validateFrom runId timeIso now s idx rs).valid =
      s.valid ++ (((rowErrs now idx s.lastTs s.seen rs).filter fun p => p.2.2.isEmpty).map
        fun p => p.2.1) := by
  intro rs
  induction rs with
  | nil => intro s idx _; simp [validateFrom, rowErrs]
  | cons r rest ih =>
    intro s idx hs
    simp only [validateFrom]
    rw [ih _ _ (validateStep_errors_lt runId timeIso now s idx r hs),
      validateStep_valid runId timeIso now s idx r hs,
      validateStep_lastTs, validateStep_seen]
    rw [rowErrs]
    cases hE : (stepErrs now s idx r).isEmpty <;>
      simp [stepErrs, List.filter_cons, hE, List.append_assoc] at hE ⊢ <;>
      simp [hE]

theorem validateFrom_quar (runId timeIso : String) (now : Int) :
    ∀ (rs : List NormalizedSample) (s : ValidateState) (idx : Nat),
    (∀ e ∈ s.errors, e.idx < idx) →
    (validateFrom runId timeIso now s idx rs).quar =
      s.quar ++ (((rowErrs now idx s.lastTs s.seen rs).filter fun p => !p.2.2.isEmpty).map
        fun p => (⟨p.2.1, "Validation failure", "E005"⟩ : QuarantineEntry)) := by
  intro rs
  induction rs with
  | nil => intro s idx _; simp [validateFrom, rowErrs]
  | cons r rest ih =>
    intro s idx hs
    simp only [validateFrom]
    rw [ih _ _ (validateStep_errors_lt runId timeIso now s idx r hs),
      validateStep_quar runId timeIso now s idx r hs,
      validateStep_lastTs, validateStep_seen]
    rw [rowErrs]
    cases hE : (stepErrs now s idx r).isEmpty <;>
      simp [stepErrs, List.filter_cons, hE, List.append_assoc] at hE ⊢ <;>
      simp [hE]

theorem rowErrs_mem (now : Int) :
    ∀ (rs : List NormalizedSample) (idx : Nat) (l : Option Int) (sn : List String)
      (p : Nat × NormalizedSample × List ValidationError), p ∈ rowErrs now idx l sn rs →
    ∃ j, rs[j]? = some p.2.1 ∧ p.1 = idx + j ∧
      p.2.2 = recordErrors p.1 (rowId p.1 p.2.1) p.2.1 now
        (lastAfter l (rs.take j)) (seenAfter sn (rs.take j)) := by
  intro rs
  induction rs with
  | nil => intro idx l sn p hp; simp [rowErrs] at hp
  | cons r rest ih =>
    intro idx l sn p hp
    rw [rowErrs] at hp
    rcases List.mem_cons.mp hp with rfl | hp
    · exact ⟨0, by simp, by simp, by simp [lastAfter, seenAfter]⟩
    · obtain ⟨j, h1, h2, h3⟩ := ih (idx + 1) (updLast r l) (insertKey (dupKey r) sn) p hp
      refine ⟨j + 1, by simpa using h1, by omega, ?_⟩
      rw [List.take_succ_cons]
      exact h3

theorem rowErrs_flat_idx_ge (now : Int) :
    ∀ (rs : List NormalizedSample) (idx : Nat) (l : Option Int) (sn : List String),
    ∀ e ∈ ((rowErrs now idx l sn rs).map fun p => p.2.2).flatten, idx ≤ e.idx := by
  intro rs
  induction rs with
  | nil => intro idx l sn e he; simp [rowErrs] at he
  | cons r rest ih =>
    intro idx l sn e he
    rw [rowErrs] at he
    simp only [List.map_cons, List.flatten_cons, List.mem_append] at he
    rcases he with h | h
    · exact (recordErrors_mem h).1 ▸ Nat.le_refl idx
    · exact Nat.le_of_succ_le (ih (idx + 1) _ _ e h)

theorem rowErrs_filter_lt (now : Int) (rs : List NormalizedSample) (idx : Nat)
    (l : Option Int) (sn : List String) (i : Nat) (h : i < idx) :
    (((rowErrs now idx l sn rs).map fun p => p.2.2).flatten.filter
      fun e => decide (e.idx = i)) = [] := by
  rw [List.filter_eq_nil_iff]
  intro e he
  have := rowErrs_flat_idx_ge now rs idx l sn e he
  simp only [decide_eq_true_eq]
  omega

theorem rowErrs_filter_at (now : Int) :
    ∀ (rs : List NormalizedSample) (idx : Nat) (l : Option Int) (sn : List String)
      (i : Nat) (r : NormalizedSample), idx ≤ i → rs[i - idx]? = some r →
    (((rowErrs now idx l sn rs).map fun p => p.2.2).flatten.filter
      fun e => decide (e.idx = i)) =
      recordErrors i (rowId i r) r now (lastAfter l (rs.take (i - idx)))
        (seenAfter sn (rs.take (i - idx))) := by
  intro rs
  induction rs with
  | nil => intro idx l sn i r hle h; simp at h
  | cons r0 rest ih =>
    intro idx l sn i r hle h
    rw [rowErrs]
    simp only [List.map_cons, List.flatten_cons, List.filter_append]
    rcases Nat.lt_or_ge idx i with hlt | hge
    · have hk : i - idx = (i - (idx + 1)) + 1 := by omega
      rw [hk, List.getElem?_cons_succ] at h
      have hhead : ((recordErrors idx (rowId idx r0) r0 now l sn).filter
          fun e => decide (e.idx = i)) = [] := by
        rw [List.filter_eq_nil_iff]
        intro e he
        have := (recordErrors_mem he).1
        simp only [decide_eq_true_eq]
        omega
      rw [hhead, List.nil_append,
        ih (idx + 1) (updLast r0 l) (insertKey (dupKey r0) sn) i r (by omega) h,
        hk, List.take_succ_cons]
      rfl
    · have hii : idx = i := Nat.le_antisymm hle hge
      subst hii
      rw [Nat.sub_self, List.getElem?_cons_zero] at h
      injection h with h
      subst h
      have hhead : ((recordErrors idx (rowId idx r0) r0 now l sn).filter
          fun e => decide (e.idx = idx)) = recordErrors idx (rowId idx r0) r0 now l sn := by
        rw [List.filter_eq_self]
        intro e he
        simp [(recordErrors_mem he).1]
      rw [hhead, rowErrs_filter_lt now rest (idx + 1) (updLast r0 l)
        (insertKey (dupKey r0) sn) idx (Nat.lt_succ_self idx), List.append_nil,
        Nat.sub_self, List.take_zero]
      rfl

/-- The run-level filter: the errors recorded for index `i` are exactly the
loop-body errors of the record at `i`, evaluated at the chronology and
duplicate state accumulated over the earlier records. -/
theorem validateRecords_filter_idx (runId timeIso : String) (now : Int)
    (audit0 : List AuditEntry) (records : List NormalizedSample) (i : Nat)
    (r : NormalizedSample) (h : records[i]? = some r) :
    ((validateRecords runId timeIso now audit0 records).errors.filter
      fun e => decide (e.idx = i)) =
      recordErrors i (rowId i r) r now (lastBefore records i) (seenBefore records i) := by
  rw [validateRecords, validateFrom_errors]
  show (([] : List ValidationError) ++ _).filter _ = _
  rw [List.nil_append]
  exact rowErrs_filter_at now records 0 none [] i r (Nat.zero_le i) (by simpa using h)

theorem validateRecords_mem_errors (runId timeIso : String) (now : Int)
    (audit0 : List AuditEntry) (records : List NormalizedSample) (i : Nat)
    (r : NormalizedSample) (h : records[i]? = some r) (e : ValidationError)
    (hidx : e.idx = i) :
    e ∈ (validateRecords runId timeIso now audit0 records).errors ↔
      e ∈ recordErrors i (rowId i r) r now (lastBefore records i) (seenBefore records i) := by
  rw [← validateRecords_filter_idx runId timeIso now audit0 records i r h, List.mem_filter]
  simp [hidx]

theorem mem_insertKey {a k : String} {sn : List String} :
    a ∈ insertKey k sn ↔ a = k ∨ a ∈ sn := by
  by_cases h : k ∈ sn
  · rw [insertKey, if_pos h]
    constructor
    · exact Or.inr
    · rintro (rfl | ha)
      · exact h
      · exact ha
  · rw [insertKey, if_neg h]
    simp [or_comm]

theorem mem_seenAfter :
    ∀ (rs : List NormalizedSample) (sn : List String) (k : String),
    k ∈ seenAfter sn rs ↔ k ∈ sn ∨ ∃ r ∈ rs, dupKey r = k := by
  intro rs
  induction rs with
  | nil => intro sn k; simp [seenAfter]
  | cons r rest ih =>
    intro sn k
    have hstep : seenAfter sn (r :: rest) = seenAfter (insertKey (dupKey r) sn) rest := rfl
    rw [hstep, ih]
    simp only [mem_insertKey, List.mem_cons]
    constructor
    · rintro ((rfl | h) | ⟨r', hr', rfl⟩)
      · exact Or.inr ⟨r, Or.inl rfl, rfl⟩
      · exact Or.inl h
      · exact Or.inr ⟨r', Or.inr hr', rfl⟩
    · rintro (h | ⟨r', rfl | hr', rfl⟩)
      · exact Or.inl (Or.inr h)
      · exact Or.inl (Or.inl rfl)
      · exact Or.inr ⟨r', hr', rfl⟩

theorem dupKey_mem_seenBefore {records : List NormalizedSample} {i j : Nat}
    {ri : NormalizedSample} (hij : i < j) (hi : records[i]? = some ri) :
    dupKey ri ∈ seenBefore records j := by
  rw [seenBefore, mem_seenAfter]
  refine Or.inr ⟨ri, ?_, rfl⟩
  have htake : (records.take j)[i]? = some ri := by
    rw [List.getElem?_take, if_pos hij]
    exact hi
  obtain ⟨hlt, hEq⟩ := List.getElem?_eq_some_iff.mp htake
  exact hEq ▸ List.getElem_mem hlt

theorem rowErrs_enum (now : Int) :
    ∀ (rs : List NormalizedSample) (idx : Nat) (l : Option Int) (sn : List String),
    (rowErrs now idx l sn rs).map (fun p => (p.1, p.2.1)) = rs.enumFrom idx := by
  intro rs
  induction rs with
  | nil => intro idx l sn; simp [rowErrs]
  | cons r rest ih =>
    intro idx l sn
    rw [rowErrs]
    simp only [List.map_cons, List.enumFrom_cons]
    rw [ih]

/-- The errors recorded at a row's index are exactly that row's error list. -/
theorem rows_filter_eq (runId timeIso : String) (now : Int) (audit0 : List AuditEntry)
    (records : List NormalizedSample) :
    ∀ p ∈ rowErrs now 0 none [] records,
      ((validateRecords runId timeIso now audit0 records).errors.filter
        fun e => decide (e.idx = p.1)) = p.2.2 := by
  intro p hp
  obtain ⟨j, h1, h2, h3⟩ := rowErrs_mem now records 0 none [] p hp
  rw [validateRecords_filter_idx runId timeIso now audit0 records p.1 p.2.1
    (by rw [h2]; simpa using h1), h3]
  have hj : p.1 = j := by omega
  rw [hj]
  rfl

/-- Projection of a filtered enumeration back to the row list, for a
predicate that only depends on the row index. -/
theorem rows_project_filter {β : Type} (rows : List (Nat × NormalizedSample × List ValidationError))
    (P : Nat → Bool) (g : Bool → Bool) (f : NormalizedSample → β)
    (h : ∀ p ∈ rows, P p.1 = p.2.2.isEmpty) :
    ((rows.map fun p => (p.1, p.2.1)).filter fun q => g (P q.1)).map (fun q => f q.2) =
      (rows.filter fun p => g p.2.2.isEmpty).map fun p => f p.2.1 := by
  induction rows with
  | nil => rfl
  | cons p rest ih =>
    simp only [List.map_cons, List.filter_cons]
    rw [h p (List.mem_cons_self p rest)]
    cases g p.2.2.isEmpty <;>
      simp [ih fun q hq => h q (List.mem_cons_of_mem p hq)]

/-- C1: each validated record lands in exactly one of the valid and
quarantine lists, membership being exactly "no error recorded at its index";
the two lengths add up to the record count and both lists preserve input
order (each is an order-preserving filter of the enumerated input). -/
theorem C1_valid_quarantine_partition (runId timeIso : String) (now : Int)
    (audit0 : List AuditEntry) (records : List NormalizedSample) :
    (validateRecords runId timeIso now audit0 records).valid.length +
      (validateRecords runId timeIso now audit0 records).quar.length = records.length ∧
    (validateRecords runId timeIso now audit0 records).valid =
      (records.enum.filter fun p =>
        ((validateRecords runId timeIso now audit0 records).errors.filter
          fun e => decide (e.idx = p.1)).isEmpty).map (fun p => p.2) ∧
    (validateRecords runId timeIso now audit0 records).quar =
      (records.enum.filter fun p =>
        !((validateRecords runId timeIso now audit0 records).errors.filter
          fun e => decide (e.idx = p.1)).isEmpty).map
        fun p => (⟨p.2, "Validation failure", "E005"⟩ : QuarantineEntry) := by
  have hinv : ∀ e ∈ (initValState audit0).errors, e.idx < 0 := by
    intro e he
    simp [initValState] at he
  have henum : records.enum = (rowErrs now 0 none [] records).map fun p => (p.1, p.2.1) :=
    (rowErrs_enum now records 0 none []).symm
  refine ⟨?_, ?_, ?_⟩
  · have h := validateFrom_count runId timeIso now records (initValState audit0) 0
    simpa [validateRecords, initValState] using h
  · rw [validateRecords, validateFrom_valid runId timeIso now records (initValState audit0) 0 hinv]
    rw [show (initValState audit0).valid = [] from rfl, List.nil_append, henum]
    exact (rows_project_filter (rowErrs now 0 none [] records)
      (fun i => ((validateRecords runId timeIso now audit0 records).errors.filter
        fun e => decide (e.idx = i)).isEmpty) (fun x => x) (fun r => r)
      (fun p hp => by
        simpa using congrArg List.isEmpty
          (rows_filter_eq runId timeIso now audit0 records p hp))).symm
  · rw [validateRecords, validateFrom_quar runId timeIso now records (initValState audit0) 0 hinv]
    rw [show (initValState audit0).quar = [] from rfl, List.nil_append, henum]
    exact (rows_project_filter (rowErrs now 0 none [] records)
      (fun i => ((validateRecords runId timeIso now audit0 records).errors.filter
        fun e => decide (e.idx = i)).isEmpty) (fun x => !x)
      (fun r => (⟨r, "Validation failure", "E005"⟩ : QuarantineEntry))
      (fun p hp => by
        simpa using congrArg List.isEmpty
          (rows_filter_eq runId timeIso now audit0 records p hp))).symm

theorem ltOpt_eq_true_iff {t : Int} {o : Option Int} :
    ltOpt t o = true ↔ ∃ m, o = some m ∧ t < m := by
  cases o <;> simp [ltOpt]

/-- Membership of the chronology error in a record's error batch is exactly
the `t < lastTs` test. -/
theorem chrono_mem_recordErrors {idx : Nat} {id : String} {r : NormalizedSample}
    {now : Int} {lastTs : Option Int} {seen : List String} {t : Int}
    (hiso : isIsoDate r.collectedAt = true) (hp : dateParse r.collectedAt = some t) :
    ((⟨idx, id, "E004", "Dataset chronology must be non-decreasing", "collectedAt"⟩ :
      ValidationError) ∈ recordErrors idx id r now lastTs seen) ↔ ltOpt t lastTs = true := by
  constructor
  · intro he
    rw [recordErrors, List.mem_append] at he
    rcases he with he | he
    · rw [preDupErrors] at he
      simp only [List.append_assoc, List.mem_append] at he
      rcases he with h | h | h | h | h | h
      · exact absurd (requiredErrors_mem h).2.2 (by simp)
      · exact absurd (enumErrors_mem h).2.2 (by simp)
      · exact absurd (rangeErrors_mem h).2.2.1 (by simp)
      · exact absurd (plausErrors_mem h).2.2 (by simp)
      · exact absurd (formatErrors_mem h).2.2 (by simp)
      · rw [timeErrors, if_pos hiso, hp] at h
        simp only [List.append_assoc, List.mem_append, mem_errIf] at h
        rcases h with ⟨-, hEq⟩ | ⟨-, hEq⟩ | ⟨hc, -⟩
        · exact absurd hEq (by simp)
        · exact absurd hEq (by simp)
        · exact hc
    · exact absurd (dupErrors_mem he).2.2 (by simp)
  · intro hc
    rw [recordErrors, List.mem_append]
    refine Or.inl ?_
    rw [preDupErrors]
    simp only [List.append_assoc, List.mem_append]
    refine Or.inr (Or.inr (Or.inr (Or.inr (Or.inr ?_))))
    rw [timeErrors, if_pos hiso, hp]
    simp only [List.append_assoc, List.mem_append, mem_errIf]
    exact Or.inr (Or.inr ⟨hc, trivial⟩)

/-- C4: for a record whose `collectedAt` matches the ISO format and parses,
the chronology error is recorded exactly when its timestamp is strictly
below the running maximum of the earlier parsed timestamps; equality with
the running maximum records no chronology error. -/
theorem C4_chronology (runId timeIso : String) (now : Int) (audit0 : List AuditEntry)
    (records : List NormalizedSample) (i : Nat) (r : NormalizedSample) (t : Int)
    (h : records[i]? = some r) (hiso : isIsoDate r.collectedAt = true)
    (hp : dateParse r.collectedAt = some t) :
    (((⟨i, rowId i r, "E004", "Dataset chronology must be non-decreasing", "collectedAt"⟩ :
        ValidationError) ∈ (validateRecords runId timeIso now audit0 records).errors) ↔
      ∃ m, lastBefore records i = some m ∧ t < m) ∧
    (∀ m, lastBefore records i = some m → t = m →
      ((⟨i, rowId i r, "E004", "Dataset chronology must be non-decreasing", "collectedAt"⟩ :
        ValidationError) ∉ (validateRecords runId timeIso now audit0 records).errors)) := by
  have hmain : ((⟨i, rowId i r, "E004", "Dataset chronology must be non-decreasing",
      "collectedAt"⟩ : ValidationError) ∈
        (validateRecords runId timeIso now audit0 records).errors) ↔
      ∃ m, lastBefore records i = some m ∧ t < m := by
    rw [validateRecords_mem_errors runId timeIso now audit0 records i r h _ rfl,
      chrono_mem_recordErrors hiso hp, ltOpt_eq_true_iff]
  refine ⟨hmain, ?_⟩
  intro m hm ht hmem
  obtain ⟨m', hm', hlt⟩ := hmain.mp hmem
  rw [hm] at hm'
  injection hm' with hm'
  omega

/-- C5: a non-NaN value records a range error if and only if it is negative
or exceeds 1,000,000 (the upper bound is inclusive). -/
theorem C5_range (runId timeIso : String) (now : Int) (audit0 : List AuditEntry)
    (records : List NormalizedSample) (i : Nat) (r : NormalizedSample) (q : ℚ)
    (h : records[i]? = some r) (hv : r.value = some q) :
    (∃ e ∈ (validateRecords runId timeIso now audit0 records).errors,
      e.idx = i ∧ e.code = "E003" ∧ e.field = "value") ↔ (q < 0 ∨ 1000000 < q) := by
  constructor
  · rintro ⟨e, hmem, hidx, hcode, hfield⟩
    rw [validateRecords_mem_errors runId timeIso now audit0 records i r h e hidx] at hmem
    rw [recordErrors, List.mem_append] at hmem
    rcases hmem with he | he
    · rw [preDupErrors] at he
      simp only [List.append_assoc, List.mem_append] at he
      rcases he with hx | hx | hx | hx | hx | hx
      · rw [(requiredErrors_mem hx).2.2] at hcode
        exact absurd hcode (by decide)
      · rw [(enumErrors_mem hx).2.2] at hcode
        exact absurd hcode (by decide)
      · rw [rangeErrors, hv] at hx
        simp only [List.mem_append, mem_errIf] at hx
        rcases hx with ⟨hq, -⟩ | ⟨hq, -⟩
        · exact Or.inl hq
        · exact Or.inr hq
      · rw [(plausErrors_mem hx).2.2] at hcode
        exact absurd hcode (by decide)
      · rw [(formatErrors_mem hx).2.2] at hcode
        exact absurd hcode (by decide)
      · rw [(timeErrors_mem hx).2.2.1] at hfield
        exact absurd hfield (by decide)
    · rw [(dupErrors_mem he).2.2] at hcode
      exact absurd hcode (by decide)
  · intro hq
    rcases hq with hq | hq
    · refine ⟨⟨i, rowId i r, "E003", "Value cannot be negative: " ++ qToStr q, "value"⟩,
        ?_, rfl, rfl, rfl⟩
      rw [validateRecords_mem_errors runId timeIso now audit0 records i r h _ rfl,
        recordErrors, List.mem_append]
      refine Or.inl ?_
      rw [preDupErrors]
      simp only [List.append_assoc, List.mem_append]
      refine Or.inr (Or.inr (Or.inl ?_))
      rw [rangeErrors, hv]
      simp only [List.mem_append, mem_errIf]
      exact Or.inl ⟨hq, trivial⟩
    · refine ⟨⟨i, rowId i r, "E003", "Value out of range: " ++ qToStr q, "value"⟩,
        ?_, rfl, rfl, rfl⟩
      rw [validateRecords_mem_errors runId timeIso now audit0 records i r h _ rfl,
        recordErrors, List.mem_append]
      refine Or.inl ?_
      rw [preDupErrors]
      simp only [List.append_assoc, List.mem_append]
      refine Or.inr (Or.inr (Or.inl ?_))
      rw [rangeErrors, hv]
      simp only [List.mem_append, mem_errIf]
      exact Or.inr ⟨hq, trivial⟩

/-- C6: a later record with a previously seen `id::accession` key records the
duplicate error, and its remaining errors are exactly the outcomes of every
other rule, unaffected by the duplicate state. -/
theorem C6_duplicates (runId timeIso : String) (now : Int) (audit0 : List AuditEntry)
    (records : List NormalizedSample) (i j : Nat) (ri rj : NormalizedSample)
    (hij : i < j) (hi : records[i]? = some ri) (hj : records[j]? = some rj)
    (hkey : dupKey ri = dupKey rj) :
    ((⟨j, rowId j rj, "E006", "Duplicate id+accession", "id/accession"⟩ : ValidationError) ∈
      (validateRecords runId timeIso now audit0 records).errors) ∧
    ((validateRecords runId timeIso now audit0 records).errors.filter
      fun e => decide (e.idx = j) && !decide (e.code = "E006")) =
      preDupErrors j (rowId j rj) rj now (lastBefore records j) := by
  constructor
  · rw [validateRecords_mem_errors runId timeIso now audit0 records j rj hj _ rfl,
      recordErrors, List.mem_append]
    refine Or.inr ?_
    rw [dupErrors]
    rw [mem_errIf]
    exact ⟨hkey ▸ dupKey_mem_seenBefore hij hi, rfl⟩
  · have h2 : ((validateRecords runId timeIso now audit0 records).errors.filter
        fun e => decide (e.idx = j) && !decide (e.code = "E006")) =
        (((validateRecords runId timeIso now audit0 records).errors.filter
          fun e => decide (e.idx = j)).filter fun e => !decide (e.code = "E006")) := by
      rw [List.filter_filter]
      exact List.filter_congr fun e he => Bool.and_comm _ _
    rw [h2, validateRecords_filter_idx runId timeIso now audit0 records j rj hj,
      recordErrors, List.filter_append]
    have h3 : ((preDupErrors j (rowId j rj) rj now (lastBefore records j)).filter
        fun e => !decide (e.code = "E006")) =
        preDupErrors j (rowId j rj) rj now (lastBefore records j) := by
      rw [List.filter_eq_self]
      intro e he
      have := (preDupErrors_mem he).2.2
      simp [this]
    have h4 : ((dupErrors j (rowId j rj) rj (seenBefore records j)).filter
        fun e => !decide (e.code = "E006")) = [] := by
      rw [List.filter_eq_nil_iff]
      intro e he
      have := (dupErrors_mem he).2.2
      simp [this]
    rw [h3, h4, List.append_nil]

/-- C2 (code bug): the plausibility check at src/app.js line 282 fires the
E005 "REPORTED requires a numeric value" error on a record whose status is
RECEIVED (not REPORTED) and whose value is NaN, because `&&` binds tighter
than `||` and the `Number.isNaN` disjunct stands alone. -/
theorem C2_plausibility_fires_without_reported :
    c2Record.status ≠ "REPORTED" ∧ c2Record.value = none ∧
    (⟨0, "SMP-9001", "E005", "REPORTED requires a numeric value", "value"⟩ :
      ValidationError) ∈ (validateRecords "run" "time" 1768500000000 [] [c2Record]).errors := by
  refine ⟨by decide, rfl, ?_⟩
  rw [validateRecords_mem_errors "run" "time" 1768500000000 [] [c2Record] 0 c2Record rfl _ rfl,
    recordErrors, List.mem_append]
  refine Or.inl ?_
  rw [preDupErrors]
  simp only [List.append_assoc, List.mem_append]
  refine Or.inr (Or.inr (Or.inr (Or.inl ?_)))
  rw [plausErrors, mem_errIf]
  exact ⟨Or.inr rfl, rfl⟩

/-! ### Reconciliation lemmas -/

theorem ackOf_id (slaMs : ℚ) (id : String) : (ackOf slaMs id).id = id := rfl

theorem ackOf_delay (slaMs : ℚ) (id : String) :
    (ackOf slaMs id).delay =
      100 + ((mulberry32 (crc32 (codeUnits id))).2 * 2400) / 4294967296 := rfl

theorem ackOf_sla (slaMs : ℚ) (id : String) :
    (ackOf slaMs id).sla = decide (((ackOf slaMs id).delay : ℚ) ≤ slaMs) := rfl

theorem reconStep_acks (timeIso runId : String) (slaMs : ℚ) :
    ∀ (ps : List ProcessedSample) (acc : ReconAcc),
    (ps.foldl (reconStep timeIso runId slaMs) acc).acks =
      acc.acks ++ ps.map fun r => ackOf slaMs r.id := by
  intro ps
  induction ps with
  | nil => intro acc; simp
  | cons r rest ih =>
    intro acc
    rw [List.foldl_cons, ih]
    simp [reconStep, List.append_assoc]

/-- The ack list produced by `reconcileRecords` is the image of the processed
list under the pure per-record function `ackOf`. -/
theorem reconcile_acks_eq_map (timeIso : String) (st : RunState) (slaMs : ℚ) :
    (reconcileRecords timeIso st slaMs).2.acks = st.processed.map fun r => ackOf slaMs r.id := by
  show (st.processed.foldl (reconStep timeIso st.runId slaMs) ⟨[], [], 0, 0, []⟩).acks = _
  rw [reconStep_acks]
  rfl

/-- C3: reconciliation is deterministic per record id: the ack list is a pure
function of the processed records' ids and the SLA threshold, so two
invocations over the same processed list (regardless of any other run state
or clock value) produce identical `AckResult`s. -/
theorem C3_reconcile_deterministic (t1 t2 : String) (st st' : RunState) (slaMs : ℚ)
    (h : st.processed = st'.processed) :
    ((reconcileRecords t1 st slaMs).2.acks = st.processed.map fun r => ackOf slaMs r.id) ∧
    (reconcileRecords t1 st slaMs).2.acks = (reconcileRecords t2 st' slaMs).2.acks := by
  refine ⟨reconcile_acks_eq_map t1 st slaMs, ?_⟩
  rw [reconcile_acks_eq_map, reconcile_acks_eq_map, h]

theorem xor32_lt {x y : Nat} (hxlt : x < 4294967296) (hylt : y < 4294967296) :
    Nat.xor x y < 4294967296 := by
  have h32 : (4294967296 : Nat) = 2 ^ 32 := by norm_num
  rw [h32] at hxlt hylt ⊢
  exact Nat.xor_lt_two_pow hxlt hylt

theorem shiftRight_le_self (x k : Nat) : x >>> k ≤ x := by
  rw [Nat.shiftRight_eq_div_pow]
  exact Nat.div_le_self x (2 ^ k)

/-- Every mulberry32 output pattern is a 32-bit value. -/
theorem mulberry32_out_lt (a : Nat) : (mulberry32 a).2 < 4294967296 := by
  have hmod : ∀ x : Nat, x % 4294967296 < 4294967296 := fun x => Nat.mod_lt x (by norm_num)
  have ht2 : Nat.xor ((((Nat.xor ((a + 0x6D2B79F5) % 4294967296)
        (((a + 0x6D2B79F5) % 4294967296) >>> 15)) * (Nat.lor 1 ((a + 0x6D2B79F5) % 4294967296))) % 4294967296 +
        ((Nat.xor (((Nat.xor ((a + 0x6D2B79F5) % 4294967296)
          (((a + 0x6D2B79F5) % 4294967296) >>> 15)) * (Nat.lor 1 ((a + 0x6D2B79F5) % 4294967296))) % 4294967296)
          ((((Nat.xor ((a + 0x6D2B79F5) % 4294967296)
          (((a + 0x6D2B79F5) % 4294967296) >>> 15)) * (Nat.lor 1 ((a + 0x6D2B79F5) % 4294967296))) % 4294967296) >>> 7)) *
          (Nat.lor 61 (((Nat.xor ((a + 0x6D2B79F5) % 4294967296)
          (((a + 0x6D2B79F5) % 4294967296) >>> 15)) * (Nat.lor 1 ((a + 0x6D2B79F5) % 4294967296))) % 4294967296))) % 4294967296) % 4294967296)
      (((Nat.xor ((a + 0x6D2B79F5) % 4294967296)
        (((a + 0x6D2B79F5) % 4294967296) >>> 15)) * (Nat.lor 1 ((a + 0x6D2B79F5) % 4294967296))) % 4294967296) <
      4294967296 := xor32_lt (hmod _) (hmod _)
  exact xor32_lt ht2 (Nat.lt_of_le_of_lt (shiftRight_le_self _ 14) ht2)

/-- C7: every delay is `100 + floor(rand() * 2400)` for the first draw of the
generator seeded from the record id's CRC-32, hence lies in `[100, 2500)`,
and the SLA flag holds exactly when the delay is at most the threshold. -/
theorem C7_delay_range_and_sla (timeIso : String) (st : RunState) (slaMs : ℚ)
    (a : AckResult) (ha : a ∈ (reconcileRecords timeIso st slaMs).2.acks) :
    a.delay = 100 + ((mulberry32 (crc32 (codeUnits a.id))).2 * 2400) / 4294967296 ∧
    100 ≤ a.delay ∧ a.delay < 2500 ∧ (a.sla = true ↔ (a.delay : ℚ) ≤ slaMs) := by
  rw [reconcile_acks_eq_map] at ha
  obtain ⟨r, -, rfl⟩ := List.mem_map.mp ha
  refine ⟨rfl, Nat.le_add_right 100 _, ?_, ?_⟩
  · have hu := mulberry32_out_lt (crc32 (codeUnits r.id))
    have hdiv : ((mulberry32 (crc32 (codeUnits r.id))).2 * 2400) / 4294967296 < 2400 := by
      apply Nat.div_lt_of_lt_mul
      calc (mulberry32 (crc32 (codeUnits r.id))).2 * 2400
          < 4294967296 * 2400 := by
            exact Nat.mul_lt_mul_of_lt_of_le hu (Nat.le_refl 2400) (by norm_num)
        _ = 2400 * 4294967296 := by ring
    rw [ackOf_delay]
    omega
  · rw [ackOf_sla]
    exact decide_eq_true_iff

/-! ### Intake abort behaviour -/

/-- C8: whenever parsing fails (thrown JSON error, non-array JSON top level,
malformed XML, or XML without sample elements — the four error outcomes of
the two parsers), intake returns `ok = false` carrying the parse message,
appends exactly one fatal audit entry, and leaves every record list of the
run empty: validation never runs. -/
theorem C8_parse_failure_aborts (runIdNew timeIso : String) (now : Int) (raw fmt : String)
    (jOut : JsonParseOutcome) (xOut : XmlParseOutcome) (msg : String)
    (h : (if fmt = "xml" then parseXml xOut else parseJson jOut) = .error msg) :
    (∀ m, parseJson (.threw m) = .error ("E010 JSON parse error: " ++ m)) ∧
    parseJson .nonArray = .error "JSON must be an array of clinical sample records." ∧
    parseXml .malformed = .error "E009 XML parse error: Malformed XML." ∧
    parseXml .noSamples = .error "XML must contain <samples><sample>..</sample></samples>." ∧
    (intakeAndValidate runIdNew timeIso now raw fmt jOut xOut).1.ok = false ∧
    (intakeAndValidate runIdNew timeIso now raw fmt jOut xOut).1.message = msg ∧
    (intakeAndValidate runIdNew timeIso now raw fmt jOut xOut).2.records = [] ∧
    (intakeAndValidate runIdNew timeIso now raw fmt jOut xOut).2.validRecords = [] ∧
    (intakeAndValidate runIdNew timeIso now raw fmt jOut xOut).2.quarantined = [] ∧
    (intakeAndValidate runIdNew timeIso now raw fmt jOut xOut).2.errors = [] ∧
    (intakeAndValidate runIdNew timeIso now raw fmt jOut xOut).2.processed = [] ∧
    (intakeAndValidate runIdNew timeIso now raw fmt jOut xOut).2.acks = [] ∧
    (intakeAndValidate runIdNew timeIso now raw fmt jOut xOut).2.audit =
      [logAudit timeIso runIdNew "intake" "-" "error" "-" msg] := by
  refine ⟨fun m => rfl, rfl, rfl, rfl, ?_⟩
  simp [intakeAndValidate, h]

/-- C10: after a parse failure the metrics report one error although the
error list is empty; after a successful intake the metrics error count is
the length of the error list. -/
theorem C10_metrics_error_count (runIdNew timeIso : String) (now : Int) (raw fmt : String)
    (jOut : JsonParseOutcome) (xOut : XmlParseOutcome) :
    (∀ msg, (if fmt = "xml" then parseXml xOut else parseJson jOut) = .error msg →
      (intakeAndValidate runIdNew timeIso now raw fmt jOut xOut).2.metrics.errors = 1 ∧
      (intakeAndValidate runIdNew timeIso now raw fmt jOut xOut).2.errors = []) ∧
    (∀ records, (if fmt = "xml" then parseXml xOut else parseJson jOut) = .ok records →
      (intakeAndValidate runIdNew timeIso now raw fmt jOut xOut).2.metrics.errors =
        (intakeAndValidate runIdNew timeIso now raw fmt jOut xOut).2.errors.length) := by
  constructor
  · intro msg hmsg
    simp [intakeAndValidate, hmsg]
  · intro records hrec
    simp only [intakeAndValidate, hrec]

/-! ### Audit checksum integrity -/

theorem crcRound_lt {c : Nat} (h : c < 4294967296) : crcRound c < 4294967296 := by
  rw [crcRound]
  split
  · exact xor32_lt (by norm_num) (Nat.lt_of_le_of_lt (shiftRight_le_self c 1) h)
  · exact Nat.lt_of_le_of_lt (shiftRight_le_self c 1) h

theorem crcTable_lt {n : Nat} (h : n < 4294967296) : crcTable n < 4294967296 := by
  rw [crcTable]
  exact crcRound_lt (crcRound_lt (crcRound_lt (crcRound_lt (crcRound_lt (crcRound_lt
    (crcRound_lt (crcRound_lt h)))))))

theorem crcStep_lt {crc : Nat} (b : Nat) (h : crc < 4294967296) :
    crcStep crc b < 4294967296 := by
  rw [crcStep]
  refine xor32_lt (Nat.lt_of_le_of_lt (shiftRight_le_self crc 8) h) (crcTable_lt ?_)
  calc Nat.land (Nat.xor crc b) 255 ≤ 255 := Nat.and_le_right
    _ < 4294967296 := by norm_num

/-- The CRC-32 value is always a 32-bit value. -/
theorem crc32_lt (units : List Nat) : crc32 units < 4294967296 := by
  rw [crc32]
  refine xor32_lt ?_ (by norm_num)
  have hfold : ∀ (l : List Nat) (c : Nat), c < 4294967296 →
      l.foldl crcStep c < 4294967296 := by
    intro l
    induction l with
    | nil => intro c h; simpa using h
    | cons b rest ih =>
      intro c h
      rw [List.foldl_cons]
      exact ih _ (crcStep_lt b h)
  exact hfold units 0xFFFFFFFF (by norm_num)

theorem natToHexAux_length :
    ∀ (fuel k n : Nat) (acc : List Char), n < 16 ^ (k + 1) →
    (natToHexAux fuel n acc).length ≤ (k + 1) + acc.length := by
  intro fuel
  induction fuel with
  | zero =>
    intro k n acc h
    rw [natToHexAux]
    simp
    omega
  | succ fuel ih =>
    intro k n acc h
    rw [natToHexAux]
    by_cases h16 : n < 16
    · rw [if_pos h16]
      simp
      omega
    · rw [if_neg h16]
      cases k with
      | zero =>
        exact absurd (by simpa using h) h16
      | succ k =>
        have hdiv : n / 16 < 16 ^ (k + 1) := by
          apply Nat.div_lt_of_lt_mul
          calc n < 16 ^ (k + 2) := h
            _ = 16 * 16 ^ (k + 1) := by ring
        have := ih (k) (n / 16) (hexDigit (n % 16) :: acc) hdiv
        simp at this
        omega

theorem natToHex_length_le {n : Nat} (h : n < 4294967296) : (natToHex n).length ≤ 8 := by
  have hpow : (16 : Nat) ^ (7 + 1) = 4294967296 := by norm_num
  have h16 : n < 16 ^ (7 + 1) := lt_of_lt_of_eq h hpow.symm
  have hlen := natToHexAux_length n 7 n [] h16
  show (natToHexAux n n []).length ≤ 8
  simpa using hlen

/-- An 8-hex-digit rendering of any 32-bit value has exactly 8 characters. -/
theorem hex8_length {n : Nat} (h : n < 4294967296) : (hex8 n).length = 8 := by
  have hle := natToHex_length_le h
  rw [hex8, String.length_append]
  have hrep : (⟨List.replicate (8 - (natToHex n).length) '0'⟩ : String).length =
      8 - (natToHex n).length := by
    show (List.replicate (8 - (natToHex n).length) '0').length = _
    exact List.length_replicate _ _
  rw [hrep]
  omega

theorem logAudit_auditOk (timeIso runId stage status outcome recordId notes : String) :
    auditOk (logAudit timeIso runId stage status outcome recordId notes) :=
  ⟨rfl, hex8_length (crc32_lt _)⟩

theorem validateFrom_auditOk (runId timeIso : String) (now : Int)
    (rs : List NormalizedSample) (s : ValidateState) (idx : Nat)
    (hs : ∀ e ∈ s.audit, auditOk e) :
    ∀ e ∈ (validateFrom runId timeIso now s idx rs).audit, auditOk e := by
  intro e he
  rw [validateFrom_audit] at he
  rcases List.mem_append.mp he with h | h
  · exact hs e h
  · obtain ⟨r, -, rfl⟩ := List.mem_map.mp h
    exact logAudit_auditOk _ _ _ _ _ _ _

theorem intake_auditOk (runIdNew timeIso : String) (now : Int) (raw fmt : String)
    (jOut : JsonParseOutcome) (xOut : XmlParseOutcome) :
    ∀ e ∈ (intakeAndValidate runIdNew timeIso now raw fmt jOut xOut).2.audit, auditOk e := by
  intro e he
  rcases hparse : (if fmt = "xml" then parseXml xOut else parseJson jOut) with msg | records <;>
    simp only [intakeAndValidate, hparse] at he
  · rw [List.mem_singleton] at he
    subst he
    exact logAudit_auditOk _ _ _ _ _ _ _
  · rcases List.mem_append.mp he with h | h
    · refine validateFrom_auditOk runIdNew timeIso now records (initValState _) 0 ?_ e h
      intro x hx
      simp only [initValState] at hx
      rw [List.mem_singleton] at hx
      subst hx
      exact logAudit_auditOk _ _ _ _ _ _ _
    · rw [List.mem_singleton] at h
      subst h
      exact logAudit_auditOk _ _ _ _ _ _ _

theorem processRecords_auditOk (timeIso : String) (st : RunState)
    (hs : ∀ e ∈ st.audit, auditOk e) :
    ∀ e ∈ (processRecords timeIso st).2.audit, auditOk e := by
  intro e he
  simp only [processRecords, List.append_assoc, List.mem_append] at he
  rcases he with h | h | h
  · exact hs e h
  · obtain ⟨p, -, rfl⟩ := List.mem_map.mp h
    exact logAudit_auditOk _ _ _ _ _ _ _
  · rw [List.mem_singleton] at h
    subst h
    exact logAudit_auditOk _ _ _ _ _ _ _

theorem reconFold_auditOk (timeIso runId : String) (slaMs : ℚ) :
    ∀ (ps : List ProcessedSample) (acc : ReconAcc), (∀ e ∈ acc.audit, auditOk e) →
    ∀ e ∈ (ps.foldl (reconStep timeIso runId slaMs) acc).audit, auditOk e := by
  intro ps
  induction ps with
  | nil => intro acc hacc e he; exact hacc e he
  | cons r rest ih =>
    intro acc hacc e he
    rw [List.foldl_cons] at he
    refine ih _ ?_ e he
    intro x hx
    rcases List.mem_append.mp hx with h | h
    · exact hacc x h
    · rw [List.mem_singleton] at h
      subst h
      exact logAudit_auditOk _ _ _ _ _ _ _

theorem reconcileRecords_auditOk (timeIso : String) (st : RunState) (slaMs : ℚ)
    (hs : ∀ e ∈ st.audit, auditOk e) :
    ∀ e ∈ (reconcileRecords timeIso st slaMs).2.audit, auditOk e := by
  intro e he
  simp only [reconcileRecords, List.append_assoc, List.mem_append] at he
  rcases he with h | h | h
  · exact hs e h
  · exact reconFold_auditOk timeIso st.runId slaMs st.processed ⟨[], [], 0, 0, []⟩
      (by intro x hx; simp at hx) e h
  · rw [List.mem_singleton] at h
    subst h
    exact logAudit_auditOk _ _ _ _ _ _ _

/-- C9: every audit entry appended by any stage of a run carries as checksum
exactly the CRC-32 of its own composite `runId|stage|recordId|notes`, as an
8-character zero-padded lowercase hex string, and identical composite
content always yields an identical checksum. -/
theorem C9_audit_checksum (runIdNew timeIso : String) (now : Int) (raw fmt : String)
    (jOut : JsonParseOutcome) (xOut : XmlParseOutcome) (slaMs : ℚ) :
    (∀ e ∈ (runPipeline runIdNew timeIso now raw fmt jOut xOut slaMs).audit,
      e.checksum = auditChecksum e.runId e.stage e.recordId e.notes ∧
        e.checksum.length = 8) ∧
    (∀ a b c d w x y z : String,
      a ++ "|" ++ b ++ "|" ++ c ++ "|" ++ d = w ++ "|" ++ x ++ "|" ++ y ++ "|" ++ z →
      auditChecksum a b c d = auditChecksum w x y z) := by
  constructor
  · intro e he
    refine reconcileRecords_auditOk timeIso _ slaMs ?_ e he
    refine processRecords_auditOk timeIso _ ?_
    exact intake_auditOk runIdNew timeIso now raw fmt jOut xOut
  · intro a b c d w x y z hcomp
    simp only [auditChecksum, hcomp]

/-! ### Concrete instantiations of the conditional theorems -/

/-- C3 at a concrete run state: both invocations yield the mapped ack list. -/
theorem C3_witness :
    ((reconcileRecords "t1" (runWith [sampleProcessed]) 1500).2.acks =
      (runWith [sampleProcessed]).processed.map fun r => ackOf 1500 r.id) ∧
    (reconcileRecords "t1" (runWith [sampleProcessed]) 1500).2.acks =
      (reconcileRecords "t2" (runWith [sampleProcessed]) 1500).2.acks :=
  C3_reconcile_deterministic "t1" "t2" (runWith [sampleProcessed])
    (runWith [sampleProcessed]) 1500 rfl

/-- C4 at two records with equal timestamps: the running maximum equals the
second record's timestamp, so no chronology error is recorded for it. -/
theorem C4_witness :
    (((⟨1, rowId 1 c4r2, "E004", "Dataset chronology must be non-decreasing", "collectedAt"⟩ :
        ValidationError) ∈
        (validateRecords "r" "t" 1768500000000 [] [c4r, c4r2]).errors) ↔
      ∃ m, lastBefore [c4r, c4r2] 1 = some m ∧ (1768467600000 : Int) < m) ∧
    (∀ m, lastBefore [c4r, c4r2] 1 = some m → (1768467600000 : Int) = m →
      ((⟨1, rowId 1 c4r2, "E004", "Dataset chronology must be non-decreasing", "collectedAt"⟩ :
        ValidationError) ∉ (validateRecords "r" "t" 1768500000000 [] [c4r, c4r2]).errors)) :=
  C4_chronology "r" "t" 1768500000000 [] [c4r, c4r2] 1 c4r2 1768467600000 (by decide)
    (by decide) (by decide)

/-- C5 at the boundary values: exactly 1,000,000 yields no range error and
1,000,000.01 yields one. -/
theorem C5_witness :
    ((∃ e ∈ (validateRecords "r" "t" 1768500000000 [] [c5rOk]).errors,
        e.idx = 0 ∧ e.code = "E003" ∧ e.field = "value") ↔
      ((1000000 : ℚ) < 0 ∨ (1000000 : ℚ) < 1000000)) ∧
    ((∃ e ∈ (validateRecords "r" "t" 1768500000000 [] [c5rBad]).errors,
        e.idx = 0 ∧ e.code = "E003" ∧ e.field = "value") ↔
      (((100000001 : ℚ) / 100) < 0 ∨ (1000000 : ℚ) < (100000001 : ℚ) / 100)) :=
  ⟨C5_range "r" "t" 1768500000000 [] [c5rOk] 0 c5rOk 1000000 rfl rfl,
   C5_range "r" "t" 1768500000000 [] [c5rBad] 0 c5rBad ((100000001 : ℚ) / 100) rfl rfl⟩

/-- C6 at a concrete duplicated key. -/
theorem C6_witness :
    ((⟨1, rowId 1 c6r2, "E006", "Duplicate id+accession", "id/accession"⟩ : ValidationError) ∈
      (validateRecords "r" "t" 1768500000000 [] [c4r, c6r2]).errors) ∧
    ((validateRecords "r" "t" 1768500000000 [] [c4r, c6r2]).errors.filter
      fun e => decide (e.idx = 1) && !decide (e.code = "E006")) =
      preDupErrors 1 (rowId 1 c6r2) c6r2 1768500000000 (lastBefore [c4r, c6r2] 1) :=
  C6_duplicates "r" "t" 1768500000000 [] [c4r, c6r2] 0 1 c4r c6r2 (by decide) rfl rfl rfl

/-- C7 at a concrete processed record. -/
theorem C7_witness :
    (ackOf 1500 "SMP-1001").delay =
      100 + ((mulberry32 (crc32 (codeUnits (ackOf 1500 "SMP-1001").id))).2 * 2400) / 4294967296 ∧
    100 ≤ (ackOf 1500 "SMP-1001").delay ∧ (ackOf 1500 "SMP-1001").delay < 2500 ∧
    ((ackOf 1500 "SMP-1001").sla = true ↔ ((ackOf 1500 "SMP-1001").delay : ℚ) ≤ 1500) :=
  C7_delay_range_and_sla "t" (runWith [sampleProcessed]) 1500 (ackOf 1500 "SMP-1001")
    (by decide)

/-- C8 at a concrete JSON parse failure. -/
theorem C8_witness :
    (∀ m, parseJson (.threw m) = .error ("E010 JSON parse error: " ++ m)) ∧
    parseJson .nonArray = .error "JSON must be an array of clinical sample records." ∧
    parseXml .malformed = .error "E009 XML parse error: Malformed XML." ∧
    parseXml .noSamples = .error "XML must contain <samples><sample>..</sample></samples>." ∧
    (intakeAndValidate "runW" "tW" 0 "notjson" "json" (.threw "Unexpected token")
      .malformed).1.ok = false ∧
    (intakeAndValidate "runW" "tW" 0 "notjson" "json" (.threw "Unexpected token")
      .malformed).1.message = "E010 JSON parse error: Unexpected token" ∧
    (intakeAndValidate "runW" "tW" 0 "notjson" "json" (.threw "Unexpected token")
      .malformed).2.records = [] ∧
    (intakeAndValidate "runW" "tW" 0 "notjson" "json" (.threw "Unexpected token")
      .malformed).2.validRecords = [] ∧
    (intakeAndValidate "runW" "tW" 0 "notjson" "json" (.threw "Unexpected token")
      .malformed).2.quarantined = [] ∧
    (intakeAndValidate "runW" "tW" 0 "notjson" "json" (.threw "Unexpected token")
      .malformed).2.errors = [] ∧
    (intakeAndValidate "runW" "tW" 0 "notjson" "json" (.threw "Unexpected token")
      .malformed).2.processed = [] ∧
    (intakeAndValidate "runW" "tW" 0 "notjson" "json" (.threw "Unexpected token")
      .malformed).2.acks = [] ∧
    (intakeAndValidate "runW" "tW" 0 "notjson" "json" (.threw "Unexpected token")
      .malformed).2.audit =
      [logAudit "tW" "runW" "intake" "-" "error" "-" "E010 JSON parse error: Unexpected token"] :=
  C8_parse_failure_aborts "runW" "tW" 0 "notjson" "json" (.threw "Unexpected token") .malformed
    "E010 JSON parse error: Unexpected token" rfl

/-- C9 at the intake entry of a concrete empty-batch run. -/
theorem C9_witness :
    (logAudit "tW" "runW" "intake" "-" "ok" "-" "Ingested 0 records via json").checksum =
      auditChecksum "runW" "intake" "-" "Ingested 0 records via json" ∧
    (logAudit "tW" "runW" "intake" "-" "ok" "-" "Ingested 0 records via json").checksum.length
      = 8 :=
  (C9_audit_checksum "runW" "tW" 0 "[]" "json" (.array []) .malformed 1500).1
    (logAudit "tW" "runW" "intake" "-" "ok" "-" "Ingested 0 records via json") (by decide)

/-- C10 at a concrete failed intake and a concrete successful empty intake. -/
theorem C10_witness :
    ((intakeAndValidate "runW" "tW" 0 "x" "json" (.threw "bad") .malformed).2.metrics.errors
        = 1 ∧
      (intakeAndValidate "runW" "tW" 0 "x" "json" (.threw "bad") .malformed).2.errors = []) ∧
    (intakeAndValidate "runW" "tW" 0 "[]" "json" (.array []) .malformed).2.metrics.errors =
      (intakeAndValidate "runW" "tW" 0 "[]" "json" (.array []) .malformed).2.errors.length :=
  ⟨(C10_metrics_error_count "runW" "tW" 0 "x" "json" (.threw "bad") .malformed).1 _ rfl,
   (C10_metrics_error_count "runW" "tW" 0 "[]" "json" (.array []) .malformed).2 [] rfl⟩

end CLSDW
